import Mathlib

/-!
Verification development for the django-typomatic type-mapping and
code-emission engine (`django_typomatic/__init__.py` and
`django_typomatic/mappings.py`), as a shallow embedding in Lean 4.

Python strings are modelled as Lean `String`s manipulated through their
character lists; Python `dict`s are insertion-ordered association lists;
Python `set`s are modelled as insertion-ordered duplicate-free lists (their
iteration order in CPython is unspecified; where the source iterates a set
whose order can matter this is noted at the definition).  Code that can
raise (`IndexError` from `key[0]` on an empty string) is modelled with
`Except`.  The module-level mutable registries (`__serializers`,
`__field_mappings`, `__mapping_overrides`, `__imports`) are threaded
explicitly: the components that generation both reads and writes live in
`Env`; `__imports` is only ever written during generation (and read at the
very end by `__generate_imports`), so import registrations are returned as
an event list and folded into the `State` by the entry points.
-/

/-! ### Python string primitives -/

/-- Python `str.upper()` (ASCII behaviour). -/
def pyUpper (s : String) : String := ⟨s.toList.map Char.toUpper⟩

/-- Helper for `pyTitle`: Python title-cases each alphabetic run. -/
def pyTitleAux : Bool → List Char → List Char
  | _, [] => []
  | prevAlpha, c :: cs =>
    (if c.isAlpha then (if prevAlpha then c.toLower else c.toUpper) else c) ::
      pyTitleAux c.isAlpha cs

/-- Python `str.title()` (ASCII behaviour): first character of each
alphabetic run uppercased, the rest lowercased. -/
def pyTitle (s : String) : String := ⟨pyTitleAux false s.toList⟩

/-- Helper for `pyReplace`, replacing every occurrence of `o :: os`.  The
`Nat` argument is fuel, structurally decreasing; `pyReplace` supplies the
input length, which always suffices since each step consumes at least one
character. -/
def pyReplaceAux (o : Char) (os new : List Char) : Nat → List Char → List Char
  | 0, l => l
  | _ + 1, [] => []
  | fuel + 1, c :: cs =>
    if (o :: os).isPrefixOf (c :: cs) then
      new ++ pyReplaceAux o os new fuel (cs.drop os.length)
    else c :: pyReplaceAux o os new fuel cs

/-- Python `str.replace(old, new)` (all occurrences, left to right). -/
def pyReplace (s old new : String) : String :=
  match old.toList with
  | [] => s
  | o :: os => ⟨pyReplaceAux o os new.toList s.toList.length s.toList⟩

/-- Helper for `pySplit`. -/
def pySplitAux (sep : Char) : List Char → List (List Char)
  | [] => [[]]
  | c :: cs =>
    match pySplitAux sep cs with
    | [] => [[]]
    | h :: t => if c = sep then [] :: h :: t else (c :: h) :: t

/-- Python `str.split(sep)` for a one-character separator. -/
def pySplit (sep : Char) (s : String) : List String :=
  (pySplitAux sep s.toList).map String.mk

/-- Python `needle in hay` (substring containment). -/
def containsSub (needle : List Char) : List Char → Bool
  | [] => needle.isEmpty
  | c :: cs => needle.isPrefixOf (c :: cs) || containsSub needle cs

/-- Lexicographic comparison of character lists by code point, which is how
Python compares strings. -/
def lexLt : List Char → List Char → Bool
  | [], [] => false
  | [], _ :: _ => true
  | _ :: _, [] => false
  | a :: as, b :: bs =>
    if a.toNat < b.toNat then true
    else if b.toNat < a.toNat then false
    else lexLt as bs

/-- Python `<` on strings. -/
def strLt (a b : String) : Bool := lexLt a.toList b.toList

/-- Insert a string into a sorted duplicate-free list, keeping it sorted and
duplicate-free. -/
def insSorted (s : String) : List String → List String
  | [] => [s]
  | t :: ts => if s = t then t :: ts else if strLt s t then s :: t :: ts else t :: insSorted s ts

/-- Python `sorted(list(set(xs)))` for strings: the sorted list of the
distinct elements. -/
def sortedSet (xs : List String) : List String := xs.foldr insSorted []

/-- Helper for `dedupKeepFirst`. -/
def dedupKeepFirstAux (seen : List String) : List String → List String
  | [] => []
  | x :: xs =>
    if seen.contains x then dedupKeepFirstAux seen xs
    else x :: dedupKeepFirstAux (seen ++ [x]) xs

/-- Python `list(dict.fromkeys(xs))`: deduplicate keeping first occurrences. -/
def dedupKeepFirst (l : List String) : List String := dedupKeepFirstAux [] l

/-! ### Python values appearing as choice keys / labels -/

/-- A Python value that can appear as a choice key or label: the source's
choice dictionaries hold strings or integers. -/
inductive PyVal where
  | s (v : String)
  | i (v : Int)
deriving DecidableEq, Repr

/-- Python `str(v)`. -/
def pyStr : PyVal → String
  | .s v => v
  | .i v => toString v

/-- `value.replace("'", "\\'")` applied when the value is a string
(lines 136-139, 195-198 of the source). -/
def escapeQuote (v : PyVal) : PyVal :=
  match v with
  | .s t => .s (pyReplace t "'" "\\'")
  | x => x

/-! ### Enum synthesis (`__get_choices_escape_spec_chars`, `__map_choices_to_*`) -/

/-- The special-character set of `__get_choices_escape_spec_chars`
(line 116-117 of the source).  It is a Python `set`; iteration order is
unspecified there, so this list fixes the order in which the characters
are written in the source.  Note that the apostrophe is not a member. -/
def specChars : List Char := "~:+[\\@^\x7b%(-\"*|,&<`\x7d.=]!>;?#$)/".toList

/-- Python `IndexError` message raised by `key[0]` on an empty string. -/
def indexErrorMsg : String := "string index out of range"

/-- One element of the `any(...)` generator in
`__get_choices_escape_spec_chars`:
`type(key) == str and (char in key or key[0].isdigit())`.
Indexing `key[0]` on an empty string raises `IndexError`. -/
def specCheckOne (c : Char) (v : PyVal) : Except String Bool :=
  match v with
  | .i _ => .ok false
  | .s k =>
    if k.toList.contains c then .ok true
    else
      match k.toList with
      | [] => .error indexErrorMsg
      | c0 :: _ => .ok c0.isDigit

/-- Inner loop of the `any(...)` scan: one character against every value,
short-circuiting on the first `True`. -/
def specCheckVals (c : Char) : List PyVal → Except String Bool
  | [] => .ok false
  | v :: vs =>
    match specCheckOne c v with
    | .error e => .error e
    | .ok true => .ok true
    | .ok false => specCheckVals c vs

/-- Outer loop of the `any(...)` scan: `for char in spec_chars` is the outer
generator, `for key in choices.keys()` the inner one. -/
def specCheckChars : List Char → List PyVal → Except String Bool
  | [], _ => .ok false
  | c :: cs, vs =>
    match specCheckVals c vs with
    | .error e => .error e
    | .ok true => .ok true
    | .ok false => specCheckChars cs vs

/-- `__get_choices_escape_spec_chars(choices)`: whether the keys and/or the
values contain a special character or start with a digit.  The key scan runs
first, then the value scan. -/
def getChoicesEscapeSpecChars (choices : List (PyVal × PyVal)) :
    Except String (Bool × Bool) :=
  match specCheckChars specChars (choices.map Prod.fst) with
  | .error e => .error e
  | .ok keyString =>
    match specCheckChars specChars (choices.map Prod.snd) with
    | .error e => .error e
    | .ok valueString => .ok (keyString, valueString)

/-- `__map_choices_to_union(field_name, choices)`: TS union of the keys.
Returns the text and the warnings logged. -/
def mapChoicesToUnion (fieldName : String) (choices : List (PyVal × PyVal)) :
    String × List String :=
  if choices.isEmpty then
    ("any", ["No choices specified for Choice Field: " ++ fieldName])
  else
    (String.intercalate " | " (choices.map (fun kv =>
      match kv.1 with
      | .s k => "\"" ++ k ++ "\""
      | .i k => toString k)), [])

/-- One member line of `__map_choices_to_enum` (lines 135-149).  The branch
`value_esc and key_esc and type(key) == str` of the source (line 144) is
unreachable because the first two branches already cover every string key;
it is therefore absent here. -/
def choiceEnumLine (keyEsc valueEsc : Bool) (kv : PyVal × PyVal) : String :=
  let value := escapeQuote kv.2
  let key := escapeQuote kv.1
  match key with
  | .s ks =>
    if keyEsc then "    '" ++ pyReplace (pyUpper ks) " " "_" ++ "' = '" ++ ks ++ "',\n"
    else "    " ++ pyReplace (pyUpper ks) " " "_" ++ " = '" ++ ks ++ "',\n"
  | .i ki =>
    if valueEsc then
      "    '" ++ pyReplace (pyUpper (pyStr value)) " " "_" ++ "' = " ++ toString ki ++ ",\n"
    else
      "    " ++ pyReplace (pyUpper (pyStr value)) " " "_" ++ " = " ++ toString ki ++ ",\n"

/-- `__map_choices_to_enum(enum_name, choices)`: the value-keyed enum.
Empty choices yield the placeholder and a warning; otherwise the escape scan
runs (and can raise) before any member is emitted. -/
def mapChoicesToEnum (enumName : String) (choices : List (PyVal × PyVal)) :
    Except String (String × List String) :=
  if choices.isEmpty then
    .ok ("let " ++ enumName ++ " = any;",
         ["No choices specified for Enum Field: " ++ enumName])
  else
    match getChoicesEscapeSpecChars choices with
    | .error e => .error e
    | .ok (keyEsc, valueEsc) =>
      .ok ("export enum " ++ enumName ++ " \x7b\n" ++
           String.join (choices.map (choiceEnumLine keyEsc valueEsc)) ++ "\x7d\n", [])

/-- One member line of `__map_choices_to_enum_values` (lines 165-176).
The source's `key.replace("'", "\'")` is an identity replacement (Python
`"\'"` is `"'"`), so the key is used unescaped.  A non-string key makes the
whole enum synthesis return nothing (`None`). -/
def choiceEnumValuesLine (keyEsc : Bool) (kv : PyVal × PyVal) : Option String :=
  let value := escapeQuote kv.2
  match kv.1 with
  | .s ks =>
    if keyEsc then some ("    '" ++ pyReplace ks " " "_" ++ "' = '" ++ pyStr value ++ "',\n")
    else some ("    " ++ pyReplace ks " " "_" ++ " = '" ++ pyStr value ++ "',\n")
  | .i _ => none

/-- Member loop of `__map_choices_to_enum_values`: stops with `None` at the
first non-string key (the partially built text is discarded). -/
def choiceEnumValuesBody (keyEsc : Bool) : List (PyVal × PyVal) → Option String
  | [] => some ""
  | kv :: rest =>
    match choiceEnumValuesLine keyEsc kv with
    | none => none
    | some line =>
      match choiceEnumValuesBody keyEsc rest with
      | none => none
      | some s => some (line ++ s)

/-- `__map_choices_to_enum_values(enum_name, choices)`: the human-label
("Values") enum, or `None` when some key is not a string. -/
def mapChoicesToEnumValues (enumName : String) (choices : List (PyVal × PyVal)) :
    Except String (Option String × List String) :=
  if choices.isEmpty then
    .ok (some ("let " ++ enumName ++ " = any;"),
         ["No choices specified for Enum Field: " ++ enumName])
  else
    match getChoicesEscapeSpecChars choices with
    | .error e => .error e
    | .ok (keyEsc, _) =>
      .ok ((choiceEnumValuesBody keyEsc choices).map (fun body =>
        "export enum " ++ enumName ++ " \x7b\n" ++ body ++ "\x7d\n"), [])

/-- One member line of `__map_choices_to_enum_keys_by_values` (lines 194-206). -/
def choiceEnumKeysLine (valueEsc : Bool) (kv : PyVal × PyVal) : String :=
  let value := escapeQuote kv.2
  let key := escapeQuote kv.1
  match key with
  | .s ks =>
    if valueEsc then
      "    '" ++ pyReplace (pyUpper (pyStr value)) " " "_" ++ "' = '" ++ ks ++ "',\n"
    else
      "    " ++ pyReplace (pyUpper (pyStr value)) " " "_" ++ " = '" ++ ks ++ "',\n"
  | .i ki =>
    if valueEsc then
      "    '" ++ pyReplace (pyUpper (pyStr value)) " " "_" ++ "' = " ++ toString ki ++ ",\n"
    else
      "    " ++ pyReplace (pyUpper (pyStr value)) " " "_" ++ " = " ++ toString ki ++ ",\n"

/-- `__map_choices_to_enum_keys_by_values(enum_name, choices)`: the
key-by-label ("Keys") enum. -/
def mapChoicesToEnumKeysByValues (enumName : String) (choices : List (PyVal × PyVal)) :
    Except String (String × List String) :=
  if choices.isEmpty then
    .ok ("let " ++ enumName ++ " = any;",
         ["No choices specified for Enum Field: " ++ enumName])
  else
    match getChoicesEscapeSpecChars choices with
    | .error e => .error e
    | .ok (_, valueEsc) =>
      .ok ("export enum " ++ enumName ++ " \x7b\n" ++
           String.join (choices.map (choiceEnumKeysLine valueEsc)) ++ "\x7d\n", [])

/-- `''.join(x.title() for x in field_name.split('_')) + "ChoiceEnum"`,
the enum name derivation used throughout the source. -/
def choiceEnumName (fieldName : String) : String :=
  String.join ((pySplit '_' fieldName).map pyTitle) ++ "ChoiceEnum"

/-- `__process_choice_field(field_name, choices, ...)`: the up-to-three
enum texts of one choice field, in source order (choices flavor first, then
"Values", then "Keys"), together with the warnings logged. -/
def processChoiceField (fieldName : String) (choices : List (PyVal × PyVal))
    (enumChoices enumValues enumKeys : Bool) :
    Except String ((Option String × Option String × Option String) × List String) :=
  let tsType := choiceEnumName fieldName
  match (if enumChoices then
          (mapChoicesToEnum tsType choices).map (fun r => (some r.1, r.2))
         else .ok (none, [])) with
  | .error e => .error e
  | .ok (tsEnum, w1) =>
    match (if enumValues then mapChoicesToEnumValues (tsType ++ "Values") choices
           else .ok (none, [])) with
    | .error e => .error e
    | .ok (tsEnumValue, w2) =>
      match (if enumKeys then
              (mapChoicesToEnumKeysByValues (tsType ++ "Keys") choices).map
                (fun r => (some r.1, r.2))
             else .ok (none, [])) with
      | .error e => .error e
      | .ok (tsEnumKey, w3) =>
        .ok ((tsEnum, tsEnumValue, tsEnumKey), w1 ++ w2 ++ w3)

/-! ### Static mapping tables (`mappings.py`) -/

/-- The scalar `mappings` table of `mappings.py`, keyed by field class name.
The Django model-field classes and the DRF serializer-field classes that
share a name also share their mapped type, so a name key is faithful.
`PositiveBigIntegerField` (Django >= 3.1) is included. -/
def mappings : List (String × String) :=
  [("AutoField", "number"), ("BigAutoField", "number"), ("BigIntegerField", "number"),
   ("BinaryField", "string"), ("BooleanField", "boolean"), ("CharField", "string"),
   ("CommaSeparatedIntegerField", "string"), ("DateField", "string"),
   ("DateTimeField", "string"), ("DecimalField", "number"), ("DurationField", "string"),
   ("EmailField", "string"), ("FilePathField", "string"), ("FloatField", "number"),
   ("GenericIPAddressField", "string"), ("IPAddressField", "string"),
   ("IntegerField", "number"), ("PositiveIntegerField", "number"),
   ("PositiveSmallIntegerField", "number"), ("SlugField", "string"),
   ("SmallAutoField", "number"), ("SmallIntegerField", "number"),
   ("TextField", "string"), ("TimeField", "string"), ("URLField", "string"),
   ("UUIDField", "string"), ("PositiveBigIntegerField", "number"),
   ("RegexField", "string"), ("DictField", "string"), ("FileField", "File"),
   ("ImageField", "File")]

/-- `mappings.get(field_type)` as an optional lookup. -/
def mappingsGet (fieldType : String) : Option String :=
  (mappings.find? (fun p => p.1 == fieldType)).map Prod.snd

/-- The `format_mappings` table of `mappings.py`, keyed by field class name. -/
def formatMappings : List (String × String) :=
  [("EmailField", "email"), ("URLField", "url"), ("UUIDField", "uuid"),
   ("DateTimeField", "date-time"), ("DateField", "date"), ("TimeField", "time"),
   ("FloatField", "double")]

/-- `format_mappings.get(field_type)` as an optional lookup. -/
def formatMappingsGet (fieldType : String) : Option String :=
  (formatMappings.find? (fun p => p.1 == fieldType)).map Prod.snd

/-! ### The data model: return annotations, fields, serializers, registry -/

/-- The Python primitive classes keyed in `primitives_mapping`. -/
inductive PrimTy where
  | pstr
  | pint
  | pfloat
  | pbool
  | pdict

/-- A method-field return annotation, as read by `get_type_hints`:
a primitive class, a generic alias (`List[T]`, ...) with its origin name and
arguments, a literal list/tuple/set of types (union-like), a Django
`Choices` subclass carrying its `.choices` pairs, a serializer class
(referenced by name into the class environment), a serializer instance
(with its `.many` flag and the class of its `.child`), or any other class. -/
inductive RetTy where
  | prim (p : PrimTy)
  | generic (origin : String) (args : List RetTy)
  | tyList (tys : List RetTy)
  | choicesCls (choices : List (PyVal × PyVal))
  | serCls (name : String)
  | serInst (name : String) (many : Bool)
  | otherCls (name : String)

/-- `primitives_mapping.get(return_type, 'any')`.  The `None` key of the
Python dict corresponds to an absent annotation (`none`); an annotation that
is some other class (including `NoneType` from an explicit `-> None`) falls
to the `'any'` default. -/
def primitivesMapping : Option RetTy → String
  | none => "null"
  | some (.prim .pstr) => "string"
  | some (.prim .pint) => "number"
  | some (.prim .pfloat) => "number"
  | some (.prim .pbool) => "boolean"
  | some (.prim .pdict) => "string"
  | some _ => "any"

/-- A method on a serializer class: its declared return annotation and the
`format` attribute attached by `@ts_format`, if any. -/
structure MethodDef where
  ret : Option RetTy := none
  fmt : Option String := none

/-- One serializer field, with the attributes the source inspects.
`ftypeName` is the name of `type(field)`; `pkWithQueryset` models
`isinstance(field, PrimaryKeyRelatedField) and field.queryset`, with
`pkTargetType` the class name of the related model's primary-key target
field after the `OneToOneField` parent-walk (that walk happens inside
Django model internals, outside this data model, so its result is taken as
given); `child`/`childRelation` hold the class name of `field.child` /
`field.child_relation` when the attribute exists; `hasChoiceStrings` models
`hasattr(field, 'choice_strings_to_values')`; `defaultVal` is `none` when
`field.default` is the `empty` sentinel. -/
structure FieldDef where
  ftypeName : String
  pkWithQueryset : Bool := false
  pkTargetType : String := ""
  child : Option String := none
  childRelation : Option String := none
  hasChoiceStrings : Bool := false
  choices : List (PyVal × PyVal) := []
  methodName : Option String := none
  readOnly : Bool := false
  required : Bool := true
  allowNull : Bool := false
  label : Option String := none
  minLength : Option Int := none
  maxLength : Option Int := none
  minValue : Option Int := none
  maxValue : Option Int := none
  defaultVal : Option PyVal := none
  fmt : Option String := none

/-- A serializer class: name, module, fields in declaration order (the
source reads them through `get_fields()` or `_declared_fields`, both of
which yield this list for the schemas in scope), and its methods. -/
structure SerializerDef where
  sname : String
  smodule : String := ""
  sfields : List (String × FieldDef) := []
  methods : List (String × MethodDef) := []

/-- The registry components that generation both reads and writes:
`__serializers` (context -> registered class names, in registration order),
`__field_mappings`, `__mapping_overrides`, the set of classes whose
`__exported__` attribute has been set to `False`, and the immutable class
environment resolving a class name to its definition. -/
structure Env where
  serializers : List (String × List String) := []
  fieldMappings : List (String × List (String × String)) := []
  mappingOverrides : List (String × List (String × List (String × String))) := []
  notExported : List String := []
  defs : List SerializerDef := []

/-- An `__imports` registration event: (consuming context, source context,
serializer class name). -/
abbrev ImportEv := String × String × String

/-- The `__imports` map: context -> (source context -> referenced names).
The inner serializer collections are Python sets; they are modelled as
insertion-ordered duplicate-free lists. -/
abbrev ImportsMap := List (String × List (String × List String))

/-- The full module state: the read-write registry plus `__imports`. -/
structure State where
  env : Env := {}
  imports : ImportsMap := []

/-- Ordered-dict lookup. -/
def lookupA {α : Type} (m : List (String × α)) (k : String) : Option α :=
  (m.find? (fun p => p.1 == k)).map Prod.snd

/-- `if k not in m: m[k] = []` on an ordered dict of lists. -/
def ensureKeyA {α : Type} (m : List (String × List α)) (k : String) :
    List (String × List α) :=
  if (lookupA m k).isSome then m else m ++ [(k, [])]

/-- `m.setdefault(k, []).append(v)` on an ordered dict of lists: appends to
the entry in place, creating the key at the end when missing. -/
def appendValA {α : Type} (m : List (String × List α)) (k : String) (v : α) :
    List (String × List α) :=
  match m with
  | [] => [(k, [v])]
  | (k', vs) :: rest =>
    if k' == k then (k', vs ++ [v]) :: rest else (k', vs) :: appendValA rest k v

/-- Resolve a class name in the environment.  Every name reachable during
generation denotes a real class; the fallback definition keeps the model
total. -/
def lookupDef (env : Env) (name : String) : SerializerDef :=
  (env.defs.find? (fun d => d.sname == name)).getD { sname := name }

/-- `__get_trimmed_name(name, trim_serializer_output)`. -/
def getTrimmedName (name : String) (trimSerializerOutput : Bool) : String :=
  let key := "Serializer"
  if trimSerializerOutput && key.toList.isSuffixOf name.toList then
    ⟨name.toList.take (name.toList.length - key.toList.length)⟩
  else name

/-- `__is_known_serializer_type(serializer_type, context)`: scans every
context's registration list in insertion order; on the first hit it records
an import of the type from the context it was found in and returns `True`.
The returned event list holds that recording. -/
def isKnownSerializerTypeAux (serializerType context : String) :
    List (String × List String) → Bool × List ImportEv
  | [] => (false, [])
  | (c, names) :: rest =>
    if names.contains serializerType then (true, [(context, c, serializerType)])
    else isKnownSerializerTypeAux serializerType context rest

/-- `__is_known_serializer_type` over the environment. -/
def isKnownSerializerType (env : Env) (serializerType context : String) :
    Bool × List ImportEv :=
  isKnownSerializerTypeAux serializerType context env.serializers

/-- The `ts_interface(context, mapping_overrides)` decorator applied to the
class `cls` (the `issubclass(cls, serializers.Serializer)` guard holds for
every class registered in this model).  Appends unconditionally to the
context's registration list. -/
def tsInterface (context : String) (mappingOverrides : Option (List (String × String)))
    (cls : String) (env : Env) : Env :=
  let env' := { env with fieldMappings := ensureKeyA env.fieldMappings context }
  let env' := { env' with serializers := appendValA env'.serializers context cls }
  match mappingOverrides with
  | none => env'
  | some ov =>
    let cur := (lookupA env'.mappingOverrides context).getD []
    if (lookupA cur cls).isSome then env'
    else { env' with mappingOverrides := appendValA env'.mappingOverrides context (cls, ov) }

/-- `setattr(return_type, '__exported__', False)`. -/
def markNotExported (env : Env) (cls : String) : Env :=
  { env with notExported := env.notExported ++ [cls] }

/-! ### Field resolver (`__process_field` and helpers) -/

/-- `__process_method_field(field_name, return_type, ...)`: a Django
`Choices` return annotation resolves through the enum modes (note that with
both `enum_choices` and `enum_values` enabled the `...ChoiceEnumValues`
name wins); anything else maps through `primitives_mapping` with the
`'any'` default and gets the list marker when `many`.  Returns the type and
the warnings logged (an empty choice set in the union fallback warns). -/
def processMethodField (fieldName : String) (returnType : Option RetTy)
    (enumChoices enumValues enumKeys : Bool) (many : Bool) : String × List String :=
  match returnType with
  | some (.choicesCls choices) =>
    if enumChoices then
      if enumValues then (choiceEnumName fieldName ++ "Values", [])
      else (choiceEnumName fieldName, [])
    else if enumKeys then (choiceEnumName fieldName ++ "Keys", [])
    else mapChoicesToUnion fieldName choices
  | rt =>
    let tsType := primitivesMapping rt
    (if many then tsType ++ "[]" else tsType, [])

/-- `hasattr(return_type, '__origin__')`. -/
def isGenericType : RetTy → Bool
  | .generic _ _ => true
  | _ => false

/-- `__process_generic_type(return_type)`: unwrap one level of
`list`/`tuple`/`set` generics.  The source indexes `args[0]`; annotations
always carry at least one argument there, so the fallback keeps the model
total. -/
def processGenericType (returnType : RetTy) : RetTy × Bool :=
  match returnType with
  | .generic origin args =>
    if origin == "list" || origin == "tuple" || origin == "set" then
      (args.headD (.otherCls "NoneType"), true)
    else (.generic origin args, false)
  | rt => (rt, false)

/-- Result of `__get_nested_serializer_field`: the updated registry, the
recorded import events, the warnings, the `format` attribute copied onto
the field from the accessor (if any), and the returned `(is_many, ts_type)`
pair. -/
structure NestedRes where
  env : Env
  events : List ImportEv
  warns : List String
  fmtUpdate : Option String
  many : Bool
  ty : String

/-- The serializer-class branch of `__get_nested_serializer_field`
(lines 321-340): a serializer-instance annotation is replaced by its child
class with its `many` flag; a serializer-class annotation that is external
to the context and not yet visible is registered on demand into the context
and marked non-exported.  Returns the updated environment, events, and the
final `(is_many, ts_type)`. -/
def nestedSerializerBranch (context : String) (trimSerializerOutput : Bool)
    (isMany many0 : Bool) (ts0 : String) (rt : RetTy) (env : Env) :
    Env × List ImportEv × Bool × String :=
  let (rt2, many1) :=
    match rt with
    | .serInst n m => (RetTy.serCls n, m)
    | r => (r, many0)
  match rt2 with
  | .serCls n =>
    let srcModule := (lookupDef env n).smodule
    let isExternal := pyReplace srcModule ".serializers" "" != context
    let (env1, evs1) :=
      if isExternal && !(((lookupA env.serializers context).getD []).contains n) then
        match isKnownSerializerType env n context with
        | (true, evs) => (env, evs)
        | (false, _) => (markNotExported (tsInterface context none n env) n, [])
      else (env, [])
    (env1, evs1, many1, getTrimmedName n trimSerializerOutput)
  | _ => (env, [], isMany, ts0)

/-- `__get_nested_serializer_field(...)`: resolve a
`SerializerMethodField` through its accessor's declared return annotation.
The accessor is `field.method_name` when set, else `get_<field_name>`;
missing accessors do not occur for the schemas in scope, so an absent entry
behaves as an unannotated accessor.  Union-like annotations (a literal
list/tuple/set of types) resolve each candidate independently (never
reaching the serializer-class branch), deduplicate, and join with " | ". -/
def getNestedSerializerField (context : String)
    (enumChoices enumValues enumKeys : Bool) (field : FieldDef)
    (fieldName : String) (isMany : Bool) (serializer : String)
    (trimSerializerOutput : Bool) (env : Env) : NestedRes :=
  let sdef := lookupDef env serializer
  let accessorName :=
    match field.methodName with
    | some m => m
    | none => "get_" ++ fieldName
  let fieldFunction := (lookupA sdef.methods accessorName).getD {}
  let returnType := fieldFunction.ret
  let (returnType1, many0) :=
    match returnType with
    | some rt =>
      if isGenericType rt then
        let p := processGenericType rt
        (some p.1, p.2)
      else (some rt, false)
    | none => (none, false)
  match returnType1 with
  | some (.tyList returnTypes) =>
    let pairs := returnTypes.map (fun rt =>
      let q := if isGenericType rt then processGenericType rt else (rt, false)
      processMethodField fieldName (some q.1) enumChoices enumValues enumKeys q.2)
    let types := dedupKeepFirst (pairs.map Prod.fst)
    ⟨env, [], pairs.foldl (fun a p => a ++ p.2) [], fieldFunction.fmt,
     isMany, String.intercalate " | " types⟩
  | some rt =>
    let (ts0, w0) := processMethodField fieldName (some rt) enumChoices enumValues enumKeys many0
    let (env1, evs1, manyOut, ts1) :=
      nestedSerializerBranch context trimSerializerOutput isMany many0 ts0 rt env
    ⟨env1, evs1, w0, fieldFunction.fmt, manyOut,
     String.intercalate " | " (dedupKeepFirst [ts1])⟩
  | none =>
    let (ts0, w0) := processMethodField fieldName none enumChoices enumValues enumKeys many0
    ⟨env, [], w0, fieldFunction.fmt, isMany,
     String.intercalate " | " (dedupKeepFirst [ts0])⟩

/-- The head of `__process_field` (lines 229-248): the element class and
the `is_many` flag, from the primary-key branch, the `child` /
`child_relation` attributes, or the field's own class. -/
def elementInfo (field : FieldDef) : Bool × String :=
  if field.pkWithQueryset then (false, field.pkTargetType)
  else
    match field.child with
    | some c => (true, c)
    | none =>
      match field.childRelation with
      | some c => (true, c)
      | none => (false, field.ftypeName)

/-- Result of the resolution chain of `__process_field` before the list
marker and the name transform are applied. -/
structure ElemRes where
  env : Env
  events : List ImportEv
  warns : List String
  field : FieldDef
  many : Bool
  ty : String

/-- The resolution chain of `__process_field` (lines 250-275), tried in
source order: registered schema (in this context or, recording an import,
in any other), custom field-kind mapping, per-schema field-name override,
`PrimaryKeyRelatedField`, the choice-mode branches, `SerializerMethodField`
resolution, and the static scalar table with the `'any'` default.  The
third choice branch of the source (line 263, requiring `enum_choices and
enum_values and not enum_keys`) is kept although the first choice branch
shadows it. -/
def processFieldElem (fieldName : String) (field : FieldDef)
    (context serializer : String)
    (trimSerializerOutput enumChoices enumValues enumKeys : Bool)
    (env : Env) : ElemRes :=
  let im := elementInfo field
  let isMany := im.1
  let fieldType := im.2
  if ((lookupA env.serializers context).getD []).contains fieldType then
    ⟨env, [], [], field, isMany, getTrimmedName fieldType trimSerializerOutput⟩
  else
    match isKnownSerializerType env fieldType context with
    | (true, evs) =>
      ⟨env, evs, [], field, isMany, getTrimmedName fieldType trimSerializerOutput⟩
    | (false, _) =>
      match lookupA ((lookupA env.fieldMappings context).getD []) fieldType with
      | some m => ⟨env, [], [], field, isMany, m⟩
      | none =>
        match (lookupA env.mappingOverrides context).bind (fun ov =>
                (lookupA ov serializer).bind (fun fo => lookupA fo fieldName)) with
        | some o => ⟨env, [], [], field, isMany, o⟩
        | none =>
          if fieldType == "PrimaryKeyRelatedField" then
            ⟨env, [], [], field, isMany, "number"⟩
          else if field.hasChoiceStrings && enumChoices then
            ⟨env, [], [], field, isMany, choiceEnumName fieldName⟩
          else if field.hasChoiceStrings && enumChoices && enumValues && !enumKeys then
            ⟨env, [], [], field, isMany, choiceEnumName fieldName ++ "Values"⟩
          else if field.hasChoiceStrings && enumKeys then
            ⟨env, [], [], field, isMany, choiceEnumName fieldName ++ "Keys"⟩
          else if field.hasChoiceStrings then
            let u := mapChoicesToUnion fieldName field.choices
            ⟨env, [], u.2, field, isMany, u.1⟩
          else if fieldType == "SerializerMethodField" then
            let r := getNestedSerializerField context enumChoices enumValues enumKeys
                      field fieldName isMany serializer trimSerializerOutput env
            let field' :=
              match r.fmtUpdate with
              | some f => { field with fmt := some f }
              | none => field
            ⟨r.env, r.events, r.warns, field', r.many, r.ty⟩
          else
            ⟨env, [], [], field, isMany, (mappingsGet fieldType).getD "any"⟩

/-- `field_name_components[0] + ''.join(x.title() for x in
field_name_components[1:])` (lines 280-282). -/
def camelizeName (fieldName : String) : String :=
  match pySplit '_' fieldName with
  | [] => ""
  | h :: t => h ++ String.join (t.map pyTitle)

/-- Result of `__process_field`: the updated registry, import events,
warnings, the (possibly `format`-updated) field object, and the returned
`(field_name, ts_type)` pair. -/
structure PFRes where
  env : Env
  events : List ImportEv
  warns : List String
  field : FieldDef
  name : String
  ty : String

/-- `__process_field(field_name, field, context, serializer, ...)`: the
resolution chain, then `'[]'` appended exactly when `is_many` (lines
276-277), then the optional camel-case transform of the name. -/
def processField (fieldName : String) (field : FieldDef)
    (context serializer : String)
    (trimSerializerOutput camelize enumChoices enumValues enumKeys : Bool)
    (env : Env) : PFRes :=
  let r := processFieldElem fieldName field context serializer
            trimSerializerOutput enumChoices enumValues enumKeys env
  let tsType := if r.many then r.ty ++ "[]" else r.ty
  let name := if camelize then camelizeName fieldName else fieldName
  ⟨r.env, r.events, r.warns, r.field, name, tsType⟩

/-! ### Interface emitter (`__get_annotations`, `__get_ts_interface`) -/

/-- `__get_annotations(field, ts_type)` (lines 541-579).  Python truthiness
is preserved: a `None` or empty label is skipped, `0` min/max constraints
are skipped (they are falsy), but a present default of any value counts
(`default is not None`). -/
def getAnnotations (field : FieldDef) (tsType : String) : List String :=
  let annotations := ["    /**"]
  let annotations := annotations ++
    (match field.label with
     | some l => if l != "" then ["    * @label " ++ l] else []
     | none => [])
  let dflt := field.defaultVal
  let annotations := annotations ++
    (if containsSub "string".toList tsType.toList then
      (match field.minLength with
       | some n => if n != 0 then ["    * @minLength " ++ toString n] else []
       | none => []) ++
      (match field.maxLength with
       | some n => if n != 0 then ["    * @maxLength " ++ toString n] else []
       | none => []) ++
      (match dflt with
       | some d =>
         if !containsSub "number | string".toList tsType.toList then
           ["    * @default \"" ++ pyStr d ++ "\""]
         else []
       | none => [])
     else []) ++
    (if containsSub "number".toList tsType.toList then
      (match field.minValue with
       | some n => if n != 0 then ["    * @minimum " ++ toString n] else []
       | none => []) ++
      (match field.maxValue with
       | some n => if n != 0 then ["    * @maximum " ++ toString n] else []
       | none => []) ++
      (match dflt with
       | some d => ["    * @default " ++ pyStr d]
       | none => [])
     else []) ++
    (match formatMappingsGet field.ftypeName with
     | some f => ["    * @format " ++ f]
     | none =>
       match field.fmt with
       | some f => ["    * @format " ++ f]
       | none => [])
  let annotations := annotations ++ ["    */"]
  if annotations.length == 2 then [] else annotations

/-- One iteration of the field loop of `__get_ts_interface` (lines
431-447): resolve the field, add the `'?'` optional marker when read-only
or not required, add `' | null'` when the field allows null, and build the
annotation block and the field line. -/
structure FEntry where
  env : Env
  events : List ImportEv
  warns : List String
  ann : List String
  line : String

/-- One field of one interface. -/
def fieldEntry (context serializer : String)
    (trimSerializerOutput camelize enumChoices enumValues enumKeys annotations : Bool)
    (env : Env) (kv : String × FieldDef) : FEntry :=
  let r := processField kv.1 kv.2 context serializer
            trimSerializerOutput camelize enumChoices enumValues enumKeys env
  let tsProperty := if r.field.readOnly || !r.field.required then r.name ++ "?" else r.name
  let tsType := if r.field.allowNull then r.ty ++ " | null" else r.ty
  let ann :=
    if annotations then
      let a := getAnnotations r.field tsType
      if a.isEmpty then [] else [String.intercalate "\n" a]
    else []
  ⟨r.env, r.events, r.warns, ann, "    " ++ tsProperty ++ ": " ++ tsType ++ ";"⟩

/-- `__get_ts_interface(serializer, context, ...)`: fold the field entries
in declaration order, join with newlines, and wrap in the interface header;
the `export ` marker is omitted when the class carries
`__exported__ = False`. -/
def getTsInterface (serializer context : String)
    (trimSerializerOutput camelize enumChoices enumValues enumKeys annotations : Bool)
    (env : Env) : Env × List ImportEv × List String × String :=
  let name := getTrimmedName serializer trimSerializerOutput
  let sdef := lookupDef env serializer
  let r := sdef.sfields.foldl (fun (acc : Env × List ImportEv × List String × List String) kv =>
    let e := fieldEntry context serializer trimSerializerOutput camelize
              enumChoices enumValues enumKeys annotations acc.1 kv
    (e.env, acc.2.1 ++ e.events, acc.2.2.1 ++ e.warns, acc.2.2.2 ++ e.ann ++ [e.line]))
    (env, [], [], [])
  let collapsed := String.intercalate "\n" r.2.2.2
  let exported := !r.1.notExported.contains serializer
  (r.1, r.2.1, r.2.2.1,
   (if exported then "export " else "") ++ "interface " ++ name ++ " \x7b\n" ++
     collapsed ++ "\n\x7d\n\n")

/-! ### Generation (`__generate_interfaces`, `__generate_enums`, entry points) -/

/-- An upper bound on how many serializers on-demand registration can append
to a context during one interface pass: each field registers at most one
class. -/
def totalFields (env : Env) : Nat :=
  env.defs.foldl (fun a d => a + d.sfields.length) 0

/-- The list comprehension of `__generate_interfaces` iterates the live
`__serializers[context]` list, so classes appended during the pass (by
on-demand registration) are reached too.  The loop is indexed with fuel;
`generateInterfaces` supplies `length + totalFields + 1`, which suffices
because each processed field appends at most one class. -/
def interfacesLoop (context : String)
    (trimSerializerOutput camelize enumChoices enumValues enumKeys annotations : Bool) :
    Nat → Nat → Env → Env × List ImportEv × List String × List String
  | 0, _, env => (env, [], [], [])
  | fuel + 1, i, env =>
    let names := (lookupA env.serializers context).getD []
    if i < names.length then
      let r := getTsInterface (names.getD i "") context trimSerializerOutput camelize
                enumChoices enumValues enumKeys annotations env
      let rest := interfacesLoop context trimSerializerOutput camelize
                   enumChoices enumValues enumKeys annotations fuel (i + 1) r.1
      (rest.1, r.2.1 ++ rest.2.1, r.2.2.1 ++ rest.2.2.1, r.2.2.2 :: rest.2.2.2)
    else (env, [], [], [])

/-- `__generate_interfaces(context, ...)`: nothing for an unregistered
context, else the interface text blocks of the context's serializers. -/
def generateInterfaces (context : String)
    (trimSerializerOutput camelize enumChoices enumValues enumKeys annotations : Bool)
    (env : Env) : Env × List ImportEv × List String × List String :=
  match lookupA env.serializers context with
  | none => (env, [], [], [])
  | some names =>
    interfacesLoop context trimSerializerOutput camelize enumChoices enumValues
      enumKeys annotations (names.length + totalFields env + 1) 0 env

/-- `__extract_field_enums(...)` (lines 506-526): choice-constrained fields
contribute their enum triple; a `SerializerMethodField` (also behind
`child`/`child_relation`) whose `get_<field_name>` accessor returns a
Django `Choices` subclass overwrites the triple with that choice set's. -/
def extractFieldEnums (enumChoices enumValues enumKeys : Bool) (field : FieldDef)
    (fieldName : String) (serializer : SerializerDef) :
    Except String ((Option String × Option String × Option String) × List String) :=
  let base :=
    if field.hasChoiceStrings then
      processChoiceField fieldName field.choices enumChoices enumValues enumKeys
    else .ok ((none, none, none), [])
  match base with
  | .error e => .error e
  | .ok (triple, w1) =>
    let fieldType :=
      match field.child with
      | some c => c
      | none =>
        match field.childRelation with
        | some c => c
        | none => field.ftypeName
    if fieldType == "SerializerMethodField" then
      let fieldFunction := (lookupA serializer.methods ("get_" ++ fieldName)).getD {}
      match fieldFunction.ret with
      | some (.choicesCls choices) =>
        match processChoiceField fieldName choices enumChoices enumValues enumKeys with
        | .error e => .error e
        | .ok (triple2, w2) => .ok (triple2, w1 ++ w2)
      | _ => .ok (triple, w1)
    else .ok (triple, w1)

/-- The append order of `__generate_enums` (lines 496-501): the "Values"
flavor first, then the "Keys" flavor, then the choices flavor, each only
when present. -/
def collectTriple (t : Option String × Option String × Option String) : List String :=
  (match t.2.1 with
   | some v => [v]
   | none => []) ++
  (match t.2.2 with
   | some v => [v]
   | none => []) ++
  (match t.1 with
   | some v => [v]
   | none => [])

/-- The enum texts contributed by one serializer. -/
def enumsForSerializer (enumChoices enumValues enumKeys : Bool) (env : Env)
    (serName : String) : Except String (List String × List String) :=
  let sdef := lookupDef env serName
  sdef.sfields.foldl (fun acc kv =>
    match acc with
    | .error e => .error e
    | .ok (es, ws) =>
      match extractFieldEnums enumChoices enumValues enumKeys kv.2 kv.1 sdef with
      | .error e => .error e
      | .ok (t, w) => .ok (es ++ collectTriple t, ws ++ w)) (.ok ([], []))

/-- `__generate_enums(context, ...)`: all enum texts of the context's
serializers, duplicates included, in registration and declaration order. -/
def generateEnums (context : String) (enumChoices enumValues enumKeys : Bool)
    (env : Env) : Except String (List String × List String) :=
  match lookupA env.serializers context with
  | none => .ok ([], [])
  | some names =>
    names.foldl (fun acc n =>
      match acc with
      | .error e => .error e
      | .ok (es, ws) =>
        match enumsForSerializer enumChoices enumValues enumKeys env n with
        | .error e => .error e
        | .ok (es2, ws2) => .ok (es ++ es2, ws ++ ws2)) (.ok ([], []))

/-- `__remove_duplicate_enums(enums)`: the callers only append non-`None`
texts, so the `is not None` filter is the identity here; distinct texts are
sorted and joined, with a trailing blank line when any exist. -/
def removeDuplicateEnums (enums : List String) : String :=
  if !enums.isEmpty then String.intercalate "\n" (sortedSet enums) ++ "\n\n" else ""

/-- `set.add` modelled on an insertion-ordered duplicate-free list. -/
def addImportName (names : List String) (n : String) : List String :=
  if names.contains n then names else names ++ [n]

/-- Inner update of one `__imports[context]` entry. -/
def addImportInner (pkgs : List (String × List String)) (src n : String) :
    List (String × List String) :=
  match pkgs with
  | [] => [(src, [n])]
  | (s, ns) :: rest =>
    if s == src then (s, addImportName ns n) :: rest
    else (s, ns) :: addImportInner rest src n

/-- Replay one import registration of `__is_known_serializer_type` on the
`__imports` map. -/
def addImport (m : ImportsMap) (ev : ImportEv) : ImportsMap :=
  match m with
  | [] => [(ev.1, addImportInner [] ev.2.1 ev.2.2)]
  | (c, pkgs) :: rest =>
    if c == ev.1 then (c, addImportInner pkgs ev.2.1 ev.2.2) :: rest
    else (c, pkgs) :: addImport rest ev

/-- Replay all import registrations, in order. -/
def applyImports (m : ImportsMap) (evs : List ImportEv) : ImportsMap :=
  evs.foldl addImport m

/-- `__generate_imports(context, trim_serializer_output)`: one line per
source context naming the referenced (possibly trimmed) serializers, a
blank line after, and nothing at all when the context never imported. -/
def generateImports (imports : ImportsMap) (context : String)
    (trimSerializerOutput : Bool) : String :=
  match lookupA imports context with
  | none => ""
  | some pkgs =>
    String.join (pkgs.map (fun p =>
      "import type \x7b " ++
      String.intercalate ", " (p.2.map (fun n => getTrimmedName n trimSerializerOutput)) ++
      " \x7d from '../" ++ p.1 ++ "';\n")) ++ "\n"

/-- The generation pass shared by both entry points: interfaces first (this
is where the registry can grow and imports are recorded), then the enums
when any enum mode is on, then the deduplicated enum section prepended to
the joined interfaces. -/
def getTsCore (context : String)
    (trimSerializerOutput camelize enumChoices enumValues enumKeys annotations : Bool)
    (env : Env) : Except String (Env × List ImportEv × List String × String) :=
  let r := generateInterfaces context trimSerializerOutput camelize enumChoices
            enumValues enumKeys annotations env
  match (if enumChoices || enumValues || enumKeys then
          generateEnums context enumChoices enumValues enumKeys r.1
         else .ok ([], [])) with
  | .error e => .error e
  | .ok (enums, ws2) =>
    .ok (r.1, r.2.1, r.2.2.1 ++ ws2,
         removeDuplicateEnums enums ++ String.join r.2.2.2)

/-- `get_ts(context, ...)`: returns the composed text — the deduplicated
enum section followed by the interfaces.  Note that no import section is
included. -/
def getTs (context : String)
    (trimSerializerOutput camelize enumChoices enumValues enumKeys annotations : Bool)
    (st : State) : Except String (State × List String × String) :=
  match getTsCore context trimSerializerOutput camelize enumChoices enumValues
          enumKeys annotations st.env with
  | .error e => .error e
  | .ok (env1, evs, ws, out) => .ok (⟨env1, applyImports st.imports evs⟩, ws, out)

/-- `generate_ts(output_path, context, ...)`: the text written to the
output file (directory creation and the file write itself are outside the
model; the written content is returned).  The import section is computed
from the final `__imports` state and precedes the enum section and the
interfaces. -/
def generateTs (outputPath context : String)
    (trimSerializerOutput camelize enumChoices enumValues enumKeys annotations : Bool)
    (st : State) : Except String (State × List String × String) :=
  let _ := outputPath
  match getTsCore context trimSerializerOutput camelize enumChoices enumValues
          enumKeys annotations st.env with
  | .error e => .error e
  | .ok (env1, evs, ws, out) =>
    let imports := applyImports st.imports evs
    .ok (⟨env1, imports⟩, ws, generateImports imports context trimSerializerOutput ++ out)

/-! ### Helper predicates and concrete instances used by the verification -/

set_option maxRecDepth 100000

/-- `Except.isOk` as a plain definition. -/
def isOkE {α : Type} (r : Except String α) : Bool :=
  match r with
  | .ok _ => true
  | .error _ => false

/-- The output text of a generation result (empty on error). -/
def outOf (r : Except String (State × List String × String)) : String :=
  match r with
  | .ok (_, _, o) => o
  | .error e => "ERROR: " ++ e

/-- The post-state of a generation result (fresh state on error). -/
def stateOf (r : Except String (State × List String × String)) : State :=
  match r with
  | .ok (st, _, _) => st
  | .error _ => {}

/-- A string none of whose characters is special or a digit — purely
alphabetic strings, apostrophes included, are the typical case.  Such a
string can never satisfy the escape scan's per-character test. -/
def cleanChars (k : String) : Prop :=
  ∀ ch ∈ k.toList, ch ∉ specChars ∧ ch.isDigit = false

instance (k : String) : Decidable (cleanChars k) := by
  unfold cleanChars
  infer_instance

/-- Cross-context fixture: context "a" holds serializer `S`, whose field
`b_ref` is a serializer field of class `B` registered in context "b". -/
def serB : SerializerDef :=
  { sname := "B", smodule := "app_b", sfields := [("n", { ftypeName := "IntegerField" })] }

/-- The importing serializer of the cross-context fixture. -/
def serS : SerializerDef :=
  { sname := "S", smodule := "app_a", sfields := [("b_ref", { ftypeName := "B" })] }

/-- The cross-context fixture state. -/
def crossCtxState : State :=
  { env := { serializers := [("a", ["S"]), ("b", ["B"])],
             fieldMappings := [("a", []), ("b", [])],
             defs := [serS, serB] } }

/-- On-demand-registration fixture: `A1` references class `E` directly
(unregistered, so it resolves to `any` on a first pass), while `A2` has a
method field whose return annotation is `E`, which registers `E` into the
context during generation. -/
def serE : SerializerDef :=
  { sname := "E", smodule := "m", sfields := [("t", { ftypeName := "CharField" })] }

/-- First serializer of the on-demand-registration fixture. -/
def serA1 : SerializerDef :=
  { sname := "A1", smodule := "m", sfields := [("e", { ftypeName := "E" })] }

/-- Second serializer of the on-demand-registration fixture. -/
def serA2 : SerializerDef :=
  { sname := "A2", smodule := "m",
    sfields := [("x", { ftypeName := "SerializerMethodField", readOnly := true,
                        required := false })],
    methods := [("get_x", { ret := some (.serCls "E") })] }

/-- The on-demand-registration fixture state. -/
def regGrowthState : State :=
  { env := { serializers := [("default", ["A1", "A2"])],
             fieldMappings := [("default", [])],
             defs := [serE, serA1, serA2] } }

/-- Duplicate-registration fixture serializer. -/
def serD : SerializerDef :=
  { sname := "D", smodule := "m", sfields := [("n", { ftypeName := "IntegerField" })] }

/-- Environment after registering `D` once via the decorator. -/
def envDonce : Env := tsInterface "default" none "D" { defs := [serD] }

/-- Environment after registering the same `D` twice via the decorator. -/
def envDtwice : Env := tsInterface "default" none "D" envDonce

/-- The interface block of `D`. -/
def dBlock : String := "export interface D \x7b\n    n: number;\n\x7d\n\n"

/-- Method-choice fixture: serializer `M` has a `SerializerMethodField`
`foo` whose accessor returns a Django `Choices` subclass. -/
def choiceRet : List (PyVal × PyVal) := [(.s "a", .s "A"), (.s "b", .s "B")]

/-- The method-choice fixture serializer. -/
def serM : SerializerDef :=
  { sname := "M", smodule := "m",
    sfields := [("foo", { ftypeName := "SerializerMethodField", readOnly := true,
                          required := false })],
    methods := [("get_foo", { ret := some (.choicesCls choiceRet) })] }

/-- The method-choice fixture environment. -/
def envM : Env :=
  { serializers := [("default", ["M"])], fieldMappings := [("default", [])],
    defs := [serM] }

/-- Unknown-scalar fixture: a field whose class has no scalar mapping. -/
def ser7 : SerializerDef :=
  { sname := "M7", smodule := "m", sfields := [("mystery", { ftypeName := "MysteryField" })] }

/-- The unknown-scalar fixture environment. -/
def env7 : Env :=
  { serializers := [("default", ["M7"])], fieldMappings := [("default", [])],
    defs := [ser7] }

/-- A key containing every character of the special-character set: the
escape scan short-circuits on it for every possible iteration order of the
Python set. -/
def allSpecKey : String := "~:+[\\@^\x7b%(-\"*|,&<`\x7d.=]!>;?#$)/"

/-- A non-empty choice set containing an empty-string key on which the
escape scan does not raise, because the first key matches every special
character. -/
def c10choices : List (PyVal × PyVal) := [(.s allSpecKey, .s "y"), (.s "", .s "z")]

/-! ### Order lemmas for the sorted deduplication -/

theorem charToNat_inj {a b : Char} (h : a.toNat = b.toNat) : a = b :=
  Char.ext (UInt32.ext h)

theorem lexLt_irrefl (l : List Char) : lexLt l l = false := by
  induction l with
  | nil => rfl
  | cons a as ih => simp [lexLt, Nat.lt_irrefl, ih]

theorem lexLt_asymm : ∀ {a b : List Char}, lexLt a b = true → lexLt b a = false
  | [], [], h => by simp [lexLt] at h
  | [], _ :: _, _ => by simp [lexLt]
  | _ :: _, [], h => by simp [lexLt] at h
  | a :: as, b :: bs, h => by
    simp only [lexLt] at h ⊢
    by_cases h1 : a.toNat < b.toNat
    · have h2 : ¬ b.toNat < a.toNat := by omega
      simp [h1, h2]
    · by_cases h2 : b.toNat < a.toNat
      · simp [h1, h2] at h
      · simp only [h1, h2, if_false] at h ⊢
        simp [lexLt_asymm h]

theorem lexLt_total : ∀ {a b : List Char}, lexLt a b = false → lexLt b a = false → a = b
  | [], [], _, _ => rfl
  | [], _ :: _, h1, _ => by simp [lexLt] at h1
  | _ :: _, [], _, h2 => by simp [lexLt] at h2
  | a :: as, b :: bs, h1, h2 => by
    simp only [lexLt] at h1 h2
    by_cases hlt : a.toNat < b.toNat
    · simp [hlt] at h1
    · by_cases hgt : b.toNat < a.toNat
      · simp [hlt, hgt] at h2
      · have he : a = b := charToNat_inj (by omega)
        simp only [hlt, hgt, if_false] at h1 h2
        rw [he, lexLt_total h1 h2]

theorem lexLt_trans : ∀ {a b c : List Char},
    lexLt a b = true → lexLt b c = true → lexLt a c = true
  | [], [], _, h1, _ => by simp [lexLt] at h1
  | [], _ :: _, [], _, h2 => by simp [lexLt] at h2
  | [], _ :: _, _ :: _, _, _ => by simp [lexLt]
  | _ :: _, [], _, h1, _ => by simp [lexLt] at h1
  | _ :: _, _ :: _, [], _, h2 => by simp [lexLt] at h2
  | a :: as, b :: bs, c :: cs, h1, h2 => by
    simp only [lexLt] at h1 h2 ⊢
    by_cases hab : a.toNat < b.toNat
    · by_cases hbc : b.toNat < c.toNat
      · simp [show a.toNat < c.toNat by omega]
      · by_cases hcb : c.toNat < b.toNat
        · simp [hbc, hcb] at h2
        · simp [show a.toNat < c.toNat by omega]
    · by_cases hba : b.toNat < a.toNat
      · simp [hab, hba] at h1
      · by_cases hbc : b.toNat < c.toNat
        · simp [show a.toNat < c.toNat by omega]
        · by_cases hcb : c.toNat < b.toNat
          · simp [hbc, hcb] at h2
          · have hac1 : ¬ a.toNat < c.toNat := by omega
            have hac2 : ¬ c.toNat < a.toNat := by omega
            simp only [hab, hba, if_false] at h1
            simp only [hbc, hcb, if_false] at h2
            simp [hac1, hac2, lexLt_trans h1 h2]

theorem strLt_irrefl (s : String) : strLt s s = false := lexLt_irrefl _

theorem strLt_trans {a b c : String} (h1 : strLt a b = true) (h2 : strLt b c = true) :
    strLt a c = true := lexLt_trans h1 h2

theorem strLt_total {a b : String} (h1 : strLt a b = false) (h2 : strLt b a = false) :
    a = b := by
  cases a with
  | mk la => cases b with
    | mk lb =>
      have := lexLt_total (a := la) (b := lb) h1 h2
      simp [this]

theorem strLt_ne {a b : String} (h : strLt a b = true) : a ≠ b := by
  intro he
  rw [he] at h
  simp [strLt_irrefl] at h

theorem mem_insSorted {x s : String} : ∀ {l : List String},
    x ∈ insSorted s l ↔ x = s ∨ x ∈ l := by
  intro l
  induction l with
  | nil => simp [insSorted]
  | cons t ts ih =>
    by_cases h1 : s = t
    · simp only [insSorted, if_pos h1]
      constructor
      · intro hx
        exact Or.inr hx
      · rintro (hx | hx)
        · simp [hx, h1]
        · exact hx
    · by_cases h2 : strLt s t
      · simp only [insSorted, if_neg h1, if_pos h2, List.mem_cons]
        try tauto
      · simp only [insSorted, if_neg h1, if_neg h2, List.mem_cons, ih]
        try tauto

theorem pairwise_insSorted {s : String} : ∀ {l : List String},
    l.Pairwise (fun a b => strLt a b = true) →
    (insSorted s l).Pairwise (fun a b => strLt a b = true) := by
  intro l
  induction l with
  | nil => intro _; simp [insSorted]
  | cons t ts ih =>
    intro h
    rcases List.pairwise_cons.mp h with ⟨ht, hts⟩
    by_cases h1 : s = t
    · simpa [insSorted, h1] using h
    · by_cases h2 : strLt s t
      · simp only [insSorted, if_neg h1, if_pos h2]
        refine List.pairwise_cons.mpr ⟨?_, h⟩
        intro x hx
        rcases List.mem_cons.mp hx with hx | hx
        · rw [hx]; exact h2
        · exact strLt_trans h2 (ht x hx)
      · simp only [insSorted, if_neg h1, if_neg h2]
        refine List.pairwise_cons.mpr ⟨?_, ih hts⟩
        intro x hx
        rcases mem_insSorted.mp hx with hx | hx
        · rw [hx]
          by_cases h3 : strLt t s
          · exact h3
          · exact absurd (strLt_total (Bool.of_not_eq_true h2 ▸ rfl) (Bool.of_not_eq_true h3 ▸ rfl)) h1
        · exact ht x hx

theorem sortedSet_pairwise (l : List String) :
    (sortedSet l).Pairwise (fun a b => strLt a b = true) := by
  induction l with
  | nil => simp [sortedSet]
  | cons x xs ih => exact pairwise_insSorted ih

theorem mem_sortedSet {x : String} : ∀ {l : List String}, x ∈ sortedSet l ↔ x ∈ l := by
  intro l
  induction l with
  | nil => simp [sortedSet]
  | cons y ys ih =>
    simp only [sortedSet, List.foldr_cons, List.mem_cons]
    rw [show List.foldr insSorted [] ys = sortedSet ys from rfl] at *
    rw [mem_insSorted, ih]

theorem sortedSet_nodup (l : List String) : (sortedSet l).Nodup :=
  (sortedSet_pairwise l).imp (fun h => strLt_ne h)

theorem count_sortedSet {x : String} {l : List String} (h : x ∈ l) :
    (sortedSet l).count x = 1 :=
  List.count_eq_one_of_mem (sortedSet_nodup l) (mem_sortedSet.mpr h)

/-! ### Scan lemmas -/

theorem toList_ne_nil {k : String} (h : k ≠ "") : k.toList ≠ [] := by
  intro he
  apply h
  cases k with
  | mk d =>
    simp only [String.toList] at he
    simp [he]

theorem specCheckOne_empty (c : Char) : specCheckOne c (.s "") = .error indexErrorMsg := rfl

theorem specCheckOne_clean {c : Char} (hc : c ∈ specChars) {k : String}
    (hk : cleanChars k) (hne : k ≠ "") : specCheckOne c (.s k) = .ok false := by
  have hmem : c ∉ k.toList := fun hmem => ((hk c hmem).1 hc).elim
  rcases hl : k.toList with _ | ⟨c0, rest⟩
  · exact absurd hl (toList_ne_nil hne)
  · have hd : c0.isDigit = false := (hk c0 (by rw [hl]; exact List.mem_cons_self _ _)).2
    rw [hl] at hmem
    simp only [specCheckOne, String.toList] at *
    simp [hl, hmem, hd]

theorem specCheckOne_ok {c : Char} {k : String} (hne : k ≠ "") :
    ∃ b, specCheckOne c (.s k) = .ok b := by
  rcases hl : k.toList with _ | ⟨c0, rest⟩
  · exact absurd hl (toList_ne_nil hne)
  · by_cases hcon : c ∈ k.toList
    · refine ⟨true, ?_⟩
      simp only [specCheckOne, String.toList] at *
      simp [hcon]
    · refine ⟨c0.isDigit, ?_⟩
      simp only [specCheckOne, String.toList] at *
      rw [hl] at hcon
      simp [hl, hcon]

theorem specCheckOne_digit {c : Char} {k : String} {c0 : Char} {rest : List Char}
    (hl : k.toList = c0 :: rest) (hd : c0.isDigit = true) :
    specCheckOne c (.s k) = .ok true := by
  by_cases hcon : c ∈ k.toList
  · simp only [specCheckOne, String.toList] at *
    simp [hcon]
  · simp only [specCheckOne, String.toList] at *
    rw [hl] at hcon
    simp [hl, hcon, hd]

theorem specCheckVals_clean {c : Char} (hc : c ∈ specChars) :
    ∀ (vs : List PyVal), (∀ k, PyVal.s k ∈ vs → cleanChars k ∧ k ≠ "") →
      specCheckVals c vs = .ok false := by
  intro vs
  induction vs with
  | nil => intro _; rfl
  | cons v vs ih =>
    intro h
    have htail := fun k hk => h k (List.mem_cons_of_mem _ hk)
    cases v with
    | i n => simpa [specCheckVals, specCheckOne] using ih htail
    | s k =>
      have hk := h k (List.mem_cons_self _ _)
      simp [specCheckVals, specCheckOne_clean hc hk.1 hk.2, ih htail]

theorem specCheckChars_clean :
    ∀ (cs : List Char), (∀ c ∈ cs, c ∈ specChars) →
    ∀ (vs : List PyVal), (∀ k, PyVal.s k ∈ vs → cleanChars k ∧ k ≠ "") →
      specCheckChars cs vs = .ok false := by
  intro cs
  induction cs with
  | nil => intro _ vs _; rfl
  | cons c cs' ih =>
    intro hm vs h
    simp [specCheckChars, specCheckVals_clean (hm c (List.mem_cons_self _ _)) vs h,
      ih (fun c' hc' => hm c' (List.mem_cons_of_mem _ hc')) vs h]

theorem specCheckVals_digit {c : Char} {k : String} {c0 : Char} {rest : List Char}
    (hl : k.toList = c0 :: rest) (hd : c0.isDigit = true) :
    ∀ (vs : List PyVal), PyVal.s k ∈ vs → specCheckVals c vs ≠ .ok false := by
  intro vs
  induction vs with
  | nil => intro h; simp at h
  | cons v vs ih =>
    intro hmem
    rcases List.mem_cons.mp hmem with heq | htail
    · rw [← heq]
      simp [specCheckVals, specCheckOne_digit hl hd]
    · rcases ho : specCheckOne c v with e | b
      · simp [specCheckVals, ho]
      · cases b
        · simpa [specCheckVals, ho] using ih htail
        · simp [specCheckVals, ho]

theorem specCheckChars_digit {k : String} {c0 : Char} {rest : List Char}
    (hl : k.toList = c0 :: rest) (hd : c0.isDigit = true) {vs : List PyVal}
    (hmem : PyVal.s k ∈ vs) :
    ∀ (cs : List Char), cs ≠ [] → specCheckChars cs vs ≠ .ok false := by
  intro cs hne
  cases cs with
  | nil => exact absurd rfl hne
  | cons c cs' =>
    intro hok
    rcases ho : specCheckVals c vs with e | b
    · simp [specCheckChars, ho] at hok
    · cases b
      · exact specCheckVals_digit hl hd vs hmem ho
      · simp [specCheckChars, ho] at hok

theorem specCheckVals_empty {c : Char} (hc : c ∈ specChars) :
    ∀ (vs : List PyVal), PyVal.s "" ∈ vs → (∀ k, PyVal.s k ∈ vs → cleanChars k) →
      specCheckVals c vs = .error indexErrorMsg := by
  intro vs
  induction vs with
  | nil => intro h _; simp at h
  | cons v vs ih =>
    intro hmem hclean
    rcases List.mem_cons.mp hmem with heq | htail
    · rw [← heq]
      simp [specCheckVals, specCheckOne_empty]
    · cases v with
      | i n =>
        simpa [specCheckVals, specCheckOne] using
          ih htail (fun k hk => hclean k (List.mem_cons_of_mem _ hk))
      | s k =>
        by_cases hke : k = ""
        · subst hke
          simp [specCheckVals, specCheckOne_empty]
        · have hck := hclean k (List.mem_cons_self _ _)
          simp [specCheckVals, specCheckOne_clean hc hck hke,
            ih htail (fun k' hk' => hclean k' (List.mem_cons_of_mem _ hk'))]

theorem specCheckChars_empty {vs : List PyVal} (hmem : PyVal.s "" ∈ vs)
    (hclean : ∀ k, PyVal.s k ∈ vs → cleanChars k) :
    ∀ (cs : List Char), cs ≠ [] → (∀ c ∈ cs, c ∈ specChars) →
      specCheckChars cs vs = .error indexErrorMsg := by
  intro cs hne hcs
  cases cs with
  | nil => exact absurd rfl hne
  | cons c cs' =>
    simp [specCheckChars,
      specCheckVals_empty (hcs c (List.mem_cons_self _ _)) vs hmem hclean]

theorem specCheckVals_ok {c : Char} :
    ∀ (vs : List PyVal), (∀ k, PyVal.s k ∈ vs → k ≠ "") →
      ∃ b, specCheckVals c vs = .ok b := by
  intro vs
  induction vs with
  | nil => exact fun _ => ⟨false, rfl⟩
  | cons v vs ih =>
    intro h
    have htail := fun k hk => h k (List.mem_cons_of_mem _ hk)
    cases v with
    | i n =>
      rcases ih htail with ⟨b, hb⟩
      exact ⟨b, by simp [specCheckVals, specCheckOne, hb]⟩
    | s k =>
      rcases specCheckOne_ok (c := c) (h k (List.mem_cons_self _ _)) with ⟨b1, hb1⟩
      cases b1
      · rcases ih htail with ⟨b, hb⟩
        exact ⟨b, by simp [specCheckVals, hb1, hb]⟩
      · exact ⟨true, by simp [specCheckVals, hb1]⟩

theorem specCheckChars_ok {vs : List PyVal} (h : ∀ k, PyVal.s k ∈ vs → k ≠ "") :
    ∀ (cs : List Char), ∃ b, specCheckChars cs vs = .ok b := by
  intro cs
  induction cs with
  | nil => exact ⟨false, rfl⟩
  | cons c cs' ih =>
    rcases specCheckVals_ok (c := c) vs h with ⟨b1, hb1⟩
    cases b1
    · rcases ih with ⟨b, hb⟩
      exact ⟨b, by simp [specCheckChars, hb1, hb]⟩
    · exact ⟨true, by simp [specCheckChars, hb1]⟩

theorem getChoicesEscape_ok {choices : List (PyVal × PyVal)}
    (hk : ∀ k, PyVal.s k ∈ choices.map Prod.fst → k ≠ "")
    (hv : ∀ v, PyVal.s v ∈ choices.map Prod.snd → v ≠ "") :
    ∃ p, getChoicesEscapeSpecChars choices = .ok p := by
  rcases specCheckChars_ok hk specChars with ⟨b1, hb1⟩
  rcases specCheckChars_ok hv specChars with ⟨b2, hb2⟩
  exact ⟨(b1, b2), by simp [getChoicesEscapeSpecChars, hb1, hb2]⟩

theorem escape_kEsc_true {choices : List (PyVal × PyVal)} {k : String} {c0 : Char}
    {rest : List Char} (hmem : PyVal.s k ∈ choices.map Prod.fst)
    (hl : k.toList = c0 :: rest) (hd : c0.isDigit = true) {kEsc vEsc : Bool}
    (h : getChoicesEscapeSpecChars choices = .ok (kEsc, vEsc)) : kEsc = true := by
  unfold getChoicesEscapeSpecChars at h
  rcases ho : specCheckChars specChars (choices.map Prod.fst) with e | b
  · rw [ho] at h
    simp at h
  · rw [ho] at h
    cases b
    · exact absurd ho (specCheckChars_digit hl hd hmem specChars (by decide))
    · rcases ho2 : specCheckChars specChars (choices.map Prod.snd) with e2 | b2 <;>
        rw [ho2] at h <;> simp at h
      exact h.1

/-! ### Support lemmas for the claims -/

theorem choiceEnumValuesBody_intkey (kEsc : Bool) :
    ∀ (choices : List (PyVal × PyVal)), (∃ n, PyVal.i n ∈ choices.map Prod.fst) →
      choiceEnumValuesBody kEsc choices = none := by
  intro choices
  induction choices with
  | nil =>
    rintro ⟨n, hn⟩
    simp at hn
  | cons kv rest ih =>
    rintro ⟨n, hn⟩
    rcases kv with ⟨k, v⟩
    cases k with
    | i m => simp [choiceEnumValuesBody, choiceEnumValuesLine]
    | s ks =>
      have htail : PyVal.i n ∈ rest.map Prod.fst := by
        simp only [List.map_cons, List.mem_cons] at hn
        rcases hn with h | h
        · exact absurd h (by simp)
        · exact h
      cases kEsc <;> simp [choiceEnumValuesBody, choiceEnumValuesLine, ih ⟨n, htail⟩]

theorem lookupA_cons_ne {α : Type} {k' k : String} {x : α} {rest : List (String × α)}
    (h : k' ≠ k) : lookupA ((k', x) :: rest) k = lookupA rest k := by
  simp [lookupA, List.find?_cons_of_neg, h]

theorem lookupA_cons_eq {α : Type} {k : String} {x : α} {rest : List (String × α)} :
    lookupA ((k, x) :: rest) k = some x := by
  simp [lookupA, List.find?_cons_of_pos]

theorem lookupA_appendValA {α : Type} (k : String) (v : α) :
    ∀ (m : List (String × List α)),
      lookupA (appendValA m k v) k = some (((lookupA m k).getD []) ++ [v]) := by
  intro m
  induction m with
  | nil => simp [appendValA, lookupA]
  | cons p rest ih =>
    rcases p with ⟨k', vs⟩
    by_cases h : k' = k
    · subst h
      simp only [appendValA, beq_self_eq_true, if_true]
      rw [lookupA_cons_eq, lookupA_cons_eq]
      rfl
    · have hbeq : (k' == k) = false := by simp [h]
      simp only [appendValA, hbeq, Bool.false_eq_true, if_false]
      rw [lookupA_cons_ne h, lookupA_cons_ne h, ih]

theorem tsInterface_serializers (context cls : String)
    (ov : Option (List (String × String))) (env : Env) :
    (tsInterface context ov cls env).serializers = appendValA env.serializers context cls := by
  unfold tsInterface
  cases ov with
  | none => rfl
  | some l =>
    dsimp only
    split <;> rfl

theorem processFieldElem_field (fieldName : String) (field : FieldDef)
    (context serializer : String) (t ec ev ek : Bool) (env : Env) :
    let f := (processFieldElem fieldName field context serializer t ec ev ek env).field
    f.allowNull = field.allowNull ∧ f.readOnly = field.readOnly ∧
      f.required = field.required := by
  unfold processFieldElem
  dsimp only
  split
  · exact ⟨rfl, rfl, rfl⟩
  · split
    · exact ⟨rfl, rfl, rfl⟩
    · split
      · exact ⟨rfl, rfl, rfl⟩
      · split
        · exact ⟨rfl, rfl, rfl⟩
        · split
          · exact ⟨rfl, rfl, rfl⟩
          · split
            · exact ⟨rfl, rfl, rfl⟩
            · split
              · exact ⟨rfl, rfl, rfl⟩
              · split
                · exact ⟨rfl, rfl, rfl⟩
                · split
                  · exact ⟨rfl, rfl, rfl⟩
                  · split
                    · split <;> exact ⟨rfl, rfl, rfl⟩
                    · exact ⟨rfl, rfl, rfl⟩

/-! ### Claims -/

/-- Claim C1 (amended): the in-memory entry point `get_ts` returns only the
deduplicated enum section followed by the interface section; the
file-writing entry point `generate_ts` writes exactly that text with the
cross-context import section prepended.  The two coincide exactly when
the import section is empty. -/
theorem c1_generateTs_eq_imports_getTs (outputPath context : String)
    (t c ec ev ek an : Bool) (st : State) :
    generateTs outputPath context t c ec ev ek an st =
      (getTs context t c ec ev ek an st).map
        (fun r => (r.1, r.2.1, generateImports r.1.imports context t ++ r.2.2)) := by
  unfold generateTs getTs
  cases hc : getTsCore context t c ec ev ek an st.env with
  | error e => simp [Except.map]
  | ok v =>
    rcases v with ⟨env1, evs, ws, out⟩
    simp [Except.map]

/-- Claim C1 counterexample: on the cross-context fixture the file-writing
entry point writes an import line that the in-memory entry point does not
return, so the two texts differ. -/
theorem c1_counterexample :
    (generateTs "out.ts" "a" false false false false false false crossCtxState).map
        (fun r => r.2.2) ≠
      (getTs "a" false false false false false false crossCtxState).map (fun r => r.2.2) := by
  intro h
  have h1 : (generateTs "out.ts" "a" false false false false false false crossCtxState).map
      (fun r => r.2.2) =
      .ok ("import type \x7b B \x7d from '../b';\n\nexport interface S \x7b\n    b_ref: B;\n\x7d\n\n") := rfl
  have h2 : (getTs "a" false false false false false false crossCtxState).map
      (fun r => r.2.2) =
      .ok ("export interface S \x7b\n    b_ref: B;\n\x7d\n\n") := rfl
  rw [h1, h2] at h
  exact absurd (Except.ok.inj h) (by decide)

/-- Claim C3 counterexample: a method-computed field whose declared return
type is choice-backed, with both enum-choices and enum-values modes
enabled, gets the `...ChoiceEnumValues` reference as its declared type, not
the `...ChoiceEnum` reference. -/
theorem c3_counterexample :
    (processField "foo"
        { ftypeName := "SerializerMethodField", readOnly := true, required := false }
        "default" "M" false false true true false envM).ty = "FooChoiceEnumValues" ∧
      "FooChoiceEnumValues" ≠ "FooChoiceEnum" :=
  ⟨rfl, by decide⟩

/-- Claim C3 (amended): for a stored choice field the enum-choices mode
takes priority for the declared type whatever the other modes are; for a
method-computed choice-backed field the enum-choices name is used unless
enum-values is also enabled, in which case the `...ChoiceEnumValues` name
becomes the declared type.  The other modes only contribute separately
named declarations through enum generation. -/
theorem c3_enum_priority_amended :
    (∀ (fieldName : String) (field : FieldDef) (context serializer : String)
        (t ev ek : Bool) (env : Env),
      field.hasChoiceStrings = true →
      ((lookupA env.serializers context).getD []).contains (elementInfo field).2 = false →
      (isKnownSerializerType env (elementInfo field).2 context).1 = false →
      lookupA ((lookupA env.fieldMappings context).getD []) (elementInfo field).2 = none →
      (lookupA env.mappingOverrides context).bind (fun ov =>
        (lookupA ov serializer).bind (fun fo => lookupA fo fieldName)) = none →
      (elementInfo field).2 ≠ "PrimaryKeyRelatedField" →
      (processFieldElem fieldName field context serializer t true ev ek env).ty =
        choiceEnumName fieldName) ∧
    (∀ (fieldName : String) (choices : List (PyVal × PyVal)) (ev ek many : Bool),
      (processMethodField fieldName (some (.choicesCls choices)) true ev ek many).1 =
        (if ev then choiceEnumName fieldName ++ "Values" else choiceEnumName fieldName)) := by
  constructor
  · intro fieldName field context serializer t ev ek env hcs h1 h2 h3 h4 h5
    unfold processFieldElem
    dsimp only
    rw [h1]
    simp only [Bool.false_eq_true, if_false]
    rcases hk : isKnownSerializerType env (elementInfo field).2 context with ⟨b, evs⟩
    rw [hk] at h2
    simp only at h2
    subst h2
    rw [h3, h4]
    simp [h5, hcs]
  · intro fieldName choices ev ek many
    cases ev <;> simp [processMethodField]

/-- Claim C7 counterexample: a field whose class has no scalar mapping
resolves to `any`, and no warning at all is logged on that path. -/
theorem c7_counterexample :
    (processField "mystery" { ftypeName := "MysteryField" } "default" "M7"
        false false false false false env7).ty = "any" ∧
      (processField "mystery" { ftypeName := "MysteryField" } "default" "M7"
        false false false false false env7).warns = [] :=
  ⟨rfl, rfl⟩

/-- Claim C7 (amended): when every earlier resolution step fails and the
scalar mapping table has no entry for the field's class, resolution does
not fail: the type falls back to `any`; no warning is logged at this step
and the registry is untouched. -/
theorem c7_scalar_fallback_amended (fieldName : String) (field : FieldDef)
    (context serializer : String) (t ec ev ek : Bool) (env : Env)
    (h1 : ((lookupA env.serializers context).getD []).contains (elementInfo field).2 = false)
    (h2 : (isKnownSerializerType env (elementInfo field).2 context).1 = false)
    (h3 : lookupA ((lookupA env.fieldMappings context).getD []) (elementInfo field).2 = none)
    (h4 : (lookupA env.mappingOverrides context).bind (fun ov =>
        (lookupA ov serializer).bind (fun fo => lookupA fo fieldName)) = none)
    (h5 : (elementInfo field).2 ≠ "PrimaryKeyRelatedField")
    (h6 : field.hasChoiceStrings = false)
    (h7 : (elementInfo field).2 ≠ "SerializerMethodField")
    (h8 : mappingsGet (elementInfo field).2 = none) :
    (processFieldElem fieldName field context serializer t ec ev ek env).ty = "any" ∧
      (processFieldElem fieldName field context serializer t ec ev ek env).warns = [] ∧
      (processFieldElem fieldName field context serializer t ec ev ek env).env = env := by
  unfold processFieldElem
  dsimp only
  rw [h1]
  simp only [Bool.false_eq_true, if_false]
  rcases hk : isKnownSerializerType env (elementInfo field).2 context with ⟨b, evs⟩
  rw [hk] at h2
  simp only at h2
  subst h2
  rw [h3, h4]
  simp [h5, h6, h7, h8]

/-- Claim C9 counterexample: after registering the same serializer twice
under the same context, generation emits its interface twice, so the output
differs from the single-registration output — duplicate registration is not
idempotent in effect. -/
theorem c9_counterexample :
    outOf (getTs "default" false false false false false false { env := envDtwice }) ≠
      outOf (getTs "default" false false false false false false { env := envDonce }) := by
  intro h
  have h1 : outOf (getTs "default" false false false false false false { env := envDtwice }) =
      dBlock ++ dBlock := rfl
  have h2 : outOf (getTs "default" false false false false false false { env := envDonce }) =
      dBlock := rfl
  rw [h1, h2] at h
  exact absurd h (by decide)

/-- Claim C9 (amended): the registration decorator appends unconditionally
to the context's list, and generation emits one interface block per entry;
registering the same schema twice therefore yields its interface block
twice, differing from a single registration. -/
theorem c9_duplicate_registration_amended :
    (∀ (context cls : String) (ov : Option (List (String × String))) (env : Env),
      lookupA (tsInterface context ov cls env).serializers context =
        some (((lookupA env.serializers context).getD []) ++ [cls])) ∧
    outOf (getTs "default" false false false false false false { env := envDtwice }) =
      dBlock ++ dBlock ∧
    outOf (getTs "default" false false false false false false { env := envDonce }) = dBlock := by
  refine ⟨?_, rfl, rfl⟩
  intro context cls ov env
  rw [tsInterface_serializers, lookupA_appendValA]

/-- Claim C6: the list marker `[]` is appended to the resolved element type
exactly once, as the last step of `__process_field` (line 276-277), and a
nullable field's rendered type carries the trailing ` | null` after every
other modifier, in particular after the list marker. -/
theorem c6_list_marker_null_order (fieldName : String) (field : FieldDef)
    (context serializer : String) (t c ec ev ek an : Bool) (env : Env) :
    ((processField fieldName field context serializer t c ec ev ek env).ty =
      (let r := processFieldElem fieldName field context serializer t ec ev ek env
       if r.many then r.ty ++ "[]" else r.ty)) ∧
    (field.allowNull = true →
      ∃ nm, (fieldEntry context serializer t c ec ev ek an env (fieldName, field)).line =
        "    " ++ nm ++ ": " ++
          ((let r := processFieldElem fieldName field context serializer t ec ev ek env
            if r.many then r.ty ++ "[]" else r.ty) ++ " | null") ++ ";") := by
  constructor
  · rfl
  · intro hnull
    have han : (processField fieldName field context serializer t c ec ev ek env).field.allowNull
        = true :=
      (processFieldElem_field fieldName field context serializer t ec ev ek env).1.trans hnull
    refine ⟨(let r := processField fieldName field context serializer t c ec ev ek env
             if r.field.readOnly || !r.field.required then r.name ++ "?" else r.name), ?_⟩
    unfold fieldEntry
    dsimp only
    rw [han]
    simp only [if_true]
    rfl

/-- Claim C8 counterexample: a choice set with a non-string key whose label
is the empty string makes the human-label flavor raise an `IndexError` in
the escape scan instead of returning no declaration — the path is not
always non-fatal. -/
theorem c8_counterexample :
    mapChoicesToEnumValues "NumChoiceEnumValues" [(PyVal.i 1, PyVal.s "")] =
        .error indexErrorMsg ∧
      PyVal.i 1 ∈ ([(PyVal.i 1, PyVal.s "")].map Prod.fst) :=
  ⟨rfl, by decide⟩

/-- Claim C8 (amended): for a choice set some of whose keys are not
string-typed, provided every string key and every string label is
non-empty (so the escape scan cannot raise), the human-label flavor
returns no declaration, the choices and key-by-label flavors are still
produced, and the caller's append guard turns the absent flavor into
nothing. -/
theorem c8_values_flavor_amended (fieldName : String) (choices : List (PyVal × PyVal))
    (h1 : ∃ n, PyVal.i n ∈ choices.map Prod.fst)
    (h2 : ∀ k, PyVal.s k ∈ choices.map Prod.fst → k ≠ "")
    (h3 : ∀ v, PyVal.s v ∈ choices.map Prod.snd → v ≠ "") :
    mapChoicesToEnumValues (choiceEnumName fieldName ++ "Values") choices = .ok (none, []) ∧
      (∃ e k, processChoiceField fieldName choices true true true =
        .ok ((some e, none, some k), [])) ∧
      (∀ e k : String, collectTriple (some e, none, some k) = [k, e]) := by
  rcases h1 with ⟨n, hn⟩
  have hne : choices.isEmpty = false := by
    cases choices with
    | nil => simp at hn
    | cons a l => rfl
  rcases getChoicesEscape_ok h2 h3 with ⟨⟨kEsc, vEsc⟩, hesc⟩
  have hval : mapChoicesToEnumValues (choiceEnumName fieldName ++ "Values") choices =
      .ok (none, []) := by
    unfold mapChoicesToEnumValues
    rw [hne]
    simp only [Bool.false_eq_true, if_false]
    rw [hesc]
    simp [choiceEnumValuesBody_intkey kEsc choices ⟨n, hn⟩]
  refine ⟨hval, ⟨?_, ?_, ?_⟩, fun e k => rfl⟩
  · exact "export enum " ++ choiceEnumName fieldName ++ " \x7b\n" ++
      String.join (choices.map (choiceEnumLine kEsc vEsc)) ++ "\x7d\n"
  · exact "export enum " ++ (choiceEnumName fieldName ++ "Keys") ++ " \x7b\n" ++
      String.join (choices.map (choiceEnumKeysLine vEsc)) ++ "\x7d\n"
  · unfold processChoiceField
    simp only [if_true]
    unfold mapChoicesToEnum mapChoicesToEnumKeysByValues
    rw [hne]
    simp only [Bool.false_eq_true, if_false]
    rw [hesc, hval]
    simp [Except.map]

/-- Claim C10 counterexample: a non-empty choice set containing an
empty-string key on which the value-keyed flavor nevertheless returns a
declaration: the first key contains every special character, so the
short-circuiting escape scan never indexes the empty string, whatever
order the character set is iterated in. -/
theorem c10_counterexample :
    isOkE (mapChoicesToEnum "XChoiceEnum" c10choices) = true ∧
      PyVal.s "" ∈ c10choices.map Prod.fst :=
  ⟨rfl, by decide⟩

/-- Claim C10 (amended): for a non-empty choice set containing an
empty-string key whose string keys are all free of special characters and
digits — or one whose string keys are clean and non-empty while some label
is the empty string with all string labels clean — the escape scan indexes
the empty string's first character without a guard, and every enum flavor
raises the `IndexError` instead of returning a declaration.  (When another
key matches a special character first, the short-circuiting scan can avoid
the crash.) -/
theorem c10_empty_string_crash_amended (name : String) (choices : List (PyVal × PyVal))
    (hclean : ∀ k, PyVal.s k ∈ choices.map Prod.fst → cleanChars k)
    (hcase : PyVal.s "" ∈ choices.map Prod.fst ∨
      ((∀ k, PyVal.s k ∈ choices.map Prod.fst → k ≠ "") ∧
       (∀ v, PyVal.s v ∈ choices.map Prod.snd → cleanChars v) ∧
       PyVal.s "" ∈ choices.map Prod.snd)) :
    mapChoicesToEnum name choices = .error indexErrorMsg ∧
      mapChoicesToEnumValues name choices = .error indexErrorMsg ∧
      mapChoicesToEnumKeysByValues name choices = .error indexErrorMsg := by
  have hne : choices.isEmpty = false := by
    cases choices with
    | nil =>
      rcases hcase with hm | ⟨_, _, hm⟩ <;> simp at hm
    | cons a l => rfl
  have hesc : getChoicesEscapeSpecChars choices = .error indexErrorMsg := by
    unfold getChoicesEscapeSpecChars
    rcases hcase with hm | ⟨hkne, hvclean, hvm⟩
    · rw [specCheckChars_empty hm hclean specChars (by decide) (fun c hc => hc)]
    · rw [specCheckChars_clean specChars (fun c hc => hc) (choices.map Prod.fst)
        (fun k hk => ⟨hclean k hk, hkne k hk⟩)]
      rw [specCheckChars_empty hvm hvclean specChars (by decide) (fun c hc => hc)]
  refine ⟨?_, ?_, ?_⟩
  · unfold mapChoicesToEnum
    rw [hne]
    simp only [Bool.false_eq_true, if_false]
    rw [hesc]
  · unfold mapChoicesToEnumValues
    rw [hne]
    simp only [Bool.false_eq_true, if_false]
    rw [hesc]
  · unfold mapChoicesToEnumKeysByValues
    rw [hne]
    simp only [Bool.false_eq_true, if_false]
    rw [hesc]

/-- Claim C4 counterexample: the special-character set does not contain the
apostrophe, so a key whose only unusual character is an apostrophe is not
escaped: the member identifier of `don't` appears unquoted (the apostrophe
itself is merely backslash-escaped), contradicting the claim that such a
key appears quoted. -/
theorem c4_counterexample :
    getChoicesEscapeSpecChars [(.s "don't", .s "X")] = .ok (false, false) ∧
      mapChoicesToEnum "FooChoiceEnum" [(.s "don't", .s "X")] =
        .ok ("export enum FooChoiceEnum \x7b\n    DON\\'T = 'don\\'t',\n\x7d\n", []) :=
  ⟨rfl, rfl⟩

/-- Claim C4 (amended): in the value-keyed enum, a string key starting with
a digit forces the key-escape flag, and with the flag set every string-key
member identifier is emitted quoted; a choice set whose string keys contain
no special character and no digit (purely alphabetic keys, apostrophes
included) leaves the flag unset and member identifiers are emitted
unquoted.  An apostrophe alone never triggers quoting. -/
theorem c4_escaping_amended :
    (∀ (choices : List (PyVal × PyVal)) (k : String) (c0 : Char) (rest : List Char)
        (kEsc vEsc : Bool),
      PyVal.s k ∈ choices.map Prod.fst → k.toList = c0 :: rest → c0.isDigit = true →
      getChoicesEscapeSpecChars choices = .ok (kEsc, vEsc) → kEsc = true) ∧
    (∀ (vEsc : Bool) (k : String) (v : PyVal),
      choiceEnumLine true vEsc (.s k, v) =
        "    '" ++ pyReplace (pyUpper (pyReplace k "'" "\\'")) " " "_" ++ "' = '" ++
          pyReplace k "'" "\\'" ++ "',\n") ∧
    (∀ (choices : List (PyVal × PyVal)),
      (∀ k, PyVal.s k ∈ choices.map Prod.fst → cleanChars k ∧ k ≠ "") →
      specCheckChars specChars (choices.map Prod.fst) = .ok false) ∧
    (∀ (vEsc : Bool) (k : String) (v : PyVal),
      choiceEnumLine false vEsc (.s k, v) =
        "    " ++ pyReplace (pyUpper (pyReplace k "'" "\\'")) " " "_" ++ " = '" ++
          pyReplace k "'" "\\'" ++ "',\n") := by
  refine ⟨?_, ?_, ?_, ?_⟩
  · intro choices k c0 rest kEsc vEsc hmem hl hd hesc
    exact escape_kEsc_true hmem hl hd hesc
  · intro vEsc k v
    rfl
  · intro choices h
    exact specCheckChars_clean specChars (fun c hc => hc) (choices.map Prod.fst) h
  · intro vEsc k v
    rfl

/-- Claim C5 counterexample: generating the same context twice with the
same configuration is not byte-identical in general: a method-computed
field whose return annotation is an unregistered external serializer
registers it into the context during the first pass, so a second pass
resolves another field's reference to that class differently. -/
theorem c5_counterexample :
    outOf (getTs "default" false false false false false false
        (stateOf (getTs "default" false false false false false false regGrowthState))) ≠
      outOf (getTs "default" false false false false false false regGrowthState) := by
  intro h
  have h1 : outOf (getTs "default" false false false false false false
      (stateOf (getTs "default" false false false false false false regGrowthState))) =
      "export interface A1 \x7b\n    e: E;\n\x7d\n\nexport interface A2 \x7b\n    x?: E;\n\x7d\n\ninterface E \x7b\n    t: string;\n\x7d\n\n" := rfl
  have h2 : outOf (getTs "default" false false false false false false regGrowthState) =
      "export interface A1 \x7b\n    e: any;\n\x7d\n\nexport interface A2 \x7b\n    x?: E;\n\x7d\n\ninterface E \x7b\n    t: string;\n\x7d\n\n" := rfl
  rw [h1, h2] at h
  exact absurd h (by decide)

/-- Claim C5 (amended): enum deduplication collapses byte-identical
declaration texts to exactly one occurrence and sorts the emitted
declarations by literal text; generating twice is byte-identical provided
the first pass left the read-write registry unchanged (no on-demand
registration), since the output is a function of that registry only. -/
theorem c5_dedup_sorted_idempotent_amended :
    (∀ (l : List String) (e : String), e ∈ l → (sortedSet l).count e = 1) ∧
    (∀ l : List String, (sortedSet l).Pairwise (fun a b => strLt a b = true)) ∧
    (∀ l : List String, l ≠ [] →
      removeDuplicateEnums l = String.intercalate "\n" (sortedSet l) ++ "\n\n") ∧
    (∀ (context : String) (t c ec ev ek an : Bool) (st st1 : State)
        (ws : List String) (out : String),
      getTs context t c ec ev ek an st = .ok (st1, ws, out) →
      st1.env = st.env →
      (getTs context t c ec ev ek an st1).map (fun r => r.2.2) = .ok out) := by
  refine ⟨fun l e he => count_sortedSet he, sortedSet_pairwise, ?_, ?_⟩
  · intro l hl
    cases l with
    | nil => exact absurd rfl hl
    | cons a t => rfl
  · intro context t c ec ev ek an st st1 ws out h he
    unfold getTs at h ⊢
    cases hc : getTsCore context t c ec ev ek an st.env with
    | error e =>
      rw [hc] at h
      exact absurd h (by simp)
    | ok v =>
      rcases v with ⟨env1, evs, ws1, out1⟩
      rw [hc] at h
      simp only [Except.ok.injEq, Prod.mk.injEq] at h
      rcases h with ⟨hst, hws, hout⟩
      have henv : getTsCore context t c ec ev ek an st1.env =
          .ok (env1, evs, ws1, out1) := by
        rw [he, hc]
      rw [henv]
      simp [Except.map, hout]

/-- Claim C2: `__process_field` resolves the element type through a strict
precedence chain, stopping at the first matching condition: (1) registered
schema — in this context, or in any context with a cross-context import
recorded; (2) custom field-kind mapping of the context; (3) per-schema
per-field-name override; (4) `PrimaryKeyRelatedField`; (5) choice
constraint (enum-mode name or inline union); (6) `SerializerMethodField`
return-annotation resolution; (7) the static scalar table with `any` as
default. -/
theorem c2_processField_precedence (fieldName : String) (field : FieldDef)
    (context serializer : String) (t ec ev ek : Bool) (env : Env) :
    (((lookupA env.serializers context).getD []).contains (elementInfo field).2 = true →
      (processFieldElem fieldName field context serializer t ec ev ek env).ty =
        getTrimmedName (elementInfo field).2 t) ∧
    (((lookupA env.serializers context).getD []).contains (elementInfo field).2 = false →
      (isKnownSerializerType env (elementInfo field).2 context).1 = true →
      (processFieldElem fieldName field context serializer t ec ev ek env).ty =
          getTrimmedName (elementInfo field).2 t ∧
        (processFieldElem fieldName field context serializer t ec ev ek env).events =
          (isKnownSerializerType env (elementInfo field).2 context).2) ∧
    (((lookupA env.serializers context).getD []).contains (elementInfo field).2 = false →
      (isKnownSerializerType env (elementInfo field).2 context).1 = false →
      ∀ m, lookupA ((lookupA env.fieldMappings context).getD []) (elementInfo field).2 = some m →
      (processFieldElem fieldName field context serializer t ec ev ek env).ty = m) ∧
    (((lookupA env.serializers context).getD []).contains (elementInfo field).2 = false →
      (isKnownSerializerType env (elementInfo field).2 context).1 = false →
      lookupA ((lookupA env.fieldMappings context).getD []) (elementInfo field).2 = none →
      ∀ o, (lookupA env.mappingOverrides context).bind (fun ov =>
        (lookupA ov serializer).bind (fun fo => lookupA fo fieldName)) = some o →
      (processFieldElem fieldName field context serializer t ec ev ek env).ty = o) ∧
    (((lookupA env.serializers context).getD []).contains (elementInfo field).2 = false →
      (isKnownSerializerType env (elementInfo field).2 context).1 = false →
      lookupA ((lookupA env.fieldMappings context).getD []) (elementInfo field).2 = none →
      (lookupA env.mappingOverrides context).bind (fun ov =>
        (lookupA ov serializer).bind (fun fo => lookupA fo fieldName)) = none →
      (elementInfo field).2 = "PrimaryKeyRelatedField" →
      (processFieldElem fieldName field context serializer t ec ev ek env).ty = "number") ∧
    (((lookupA env.serializers context).getD []).contains (elementInfo field).2 = false →
      (isKnownSerializerType env (elementInfo field).2 context).1 = false →
      lookupA ((lookupA env.fieldMappings context).getD []) (elementInfo field).2 = none →
      (lookupA env.mappingOverrides context).bind (fun ov =>
        (lookupA ov serializer).bind (fun fo => lookupA fo fieldName)) = none →
      (elementInfo field).2 ≠ "PrimaryKeyRelatedField" →
      field.hasChoiceStrings = true →
      (processFieldElem fieldName field context serializer t ec ev ek env).ty =
        (if ec then choiceEnumName fieldName
         else if ek then choiceEnumName fieldName ++ "Keys"
         else (mapChoicesToUnion fieldName field.choices).1)) ∧
    (((lookupA env.serializers context).getD []).contains (elementInfo field).2 = false →
      (isKnownSerializerType env (elementInfo field).2 context).1 = false →
      lookupA ((lookupA env.fieldMappings context).getD []) (elementInfo field).2 = none →
      (lookupA env.mappingOverrides context).bind (fun ov =>
        (lookupA ov serializer).bind (fun fo => lookupA fo fieldName)) = none →
      (elementInfo field).2 ≠ "PrimaryKeyRelatedField" →
      field.hasChoiceStrings = false →
      (elementInfo field).2 = "SerializerMethodField" →
      (processFieldElem fieldName field context serializer t ec ev ek env).ty =
        (getNestedSerializerField context ec ev ek field fieldName
          (elementInfo field).1 serializer t env).ty) ∧
    (((lookupA env.serializers context).getD []).contains (elementInfo field).2 = false →
      (isKnownSerializerType env (elementInfo field).2 context).1 = false →
      lookupA ((lookupA env.fieldMappings context).getD []) (elementInfo field).2 = none →
      (lookupA env.mappingOverrides context).bind (fun ov =>
        (lookupA ov serializer).bind (fun fo => lookupA fo fieldName)) = none →
      (elementInfo field).2 ≠ "PrimaryKeyRelatedField" →
      field.hasChoiceStrings = false →
      (elementInfo field).2 ≠ "SerializerMethodField" →
      (processFieldElem fieldName field context serializer t ec ev ek env).ty =
        (mappingsGet (elementInfo field).2).getD "any") := by
  refine ⟨?_, ?_, ?_, ?_, ?_, ?_, ?_, ?_⟩
  · intro h1
    unfold processFieldElem
    dsimp only
    rw [h1]
    simp
  · intro h1 h2
    unfold processFieldElem
    dsimp only
    rw [h1]
    simp only [Bool.false_eq_true, if_false]
    rcases hk : isKnownSerializerType env (elementInfo field).2 context with ⟨b, evs⟩
    rw [hk] at h2
    simp only at h2
    subst h2
    exact ⟨rfl, rfl⟩
  · intro h1 h2 m hm
    unfold processFieldElem
    dsimp only
    rw [h1]
    simp only [Bool.false_eq_true, if_false]
    rcases hk : isKnownSerializerType env (elementInfo field).2 context with ⟨b, evs⟩
    rw [hk] at h2
    simp only at h2
    subst h2
    rw [hm]
  · intro h1 h2 h3 o ho
    unfold processFieldElem
    dsimp only
    rw [h1]
    simp only [Bool.false_eq_true, if_false]
    rcases hk : isKnownSerializerType env (elementInfo field).2 context with ⟨b, evs⟩
    rw [hk] at h2
    simp only at h2
    subst h2
    rw [h3, ho]
  · intro h1 h2 h3 h4 h5
    unfold processFieldElem
    dsimp only
    rw [h1]
    simp only [Bool.false_eq_true, if_false]
    rcases hk : isKnownSerializerType env (elementInfo field).2 context with ⟨b, evs⟩
    rw [hk] at h2
    simp only at h2
    subst h2
    rw [h3, h4]
    simp [h5]
  · intro h1 h2 h3 h4 h5 h6
    unfold processFieldElem
    dsimp only
    rw [h1]
    simp only [Bool.false_eq_true, if_false]
    rcases hk : isKnownSerializerType env (elementInfo field).2 context with ⟨b, evs⟩
    rw [hk] at h2
    simp only at h2
    subst h2
    rw [h3, h4]
    cases ec <;> cases ek <;> simp [h5, h6]
  · intro h1 h2 h3 h4 h5 h6 h7
    unfold processFieldElem
    dsimp only
    rw [h1]
    simp only [Bool.false_eq_true, if_false]
    rcases hk : isKnownSerializerType env (elementInfo field).2 context with ⟨b, evs⟩
    rw [hk] at h2
    simp only at h2
    subst h2
    rw [h3, h4]
    simp [h5, h6, h7]
  · intro h1 h2 h3 h4 h5 h6 h7
    unfold processFieldElem
    dsimp only
    rw [h1]
    simp only [Bool.false_eq_true, if_false]
    rcases hk : isKnownSerializerType env (elementInfo field).2 context with ⟨b, evs⟩
    rw [hk] at h2
    simp only at h2
    subst h2
    rw [h3, h4]
    simp [h5, h6, h7]

/-- Witness for C2: the fallback conjunct applied to a concrete field with
an unmapped class. -/
theorem c2_witness :
    (processFieldElem "mystery" { ftypeName := "MysteryField" } "default" "M7"
      false false false false env7).ty = "any" :=
  (c2_processField_precedence "mystery" { ftypeName := "MysteryField" } "default" "M7"
    false false false false env7).2.2.2.2.2.2.2 rfl rfl rfl rfl (by decide) rfl (by decide)

/-- Witness for C3: a concrete stored choice field with enum-choices,
enum-values both on, and a concrete method-field resolution. -/
theorem c3_witness :
    (processFieldElem "foo"
        { ftypeName := "ChoiceField", hasChoiceStrings := true, choices := choiceRet }
        "default" "M" false true true false envM).ty = "FooChoiceEnum" ∧
      (processMethodField "foo" (some (.choicesCls choiceRet)) true false false false).1 =
        "FooChoiceEnum" :=
  ⟨(c3_enum_priority_amended.1 "foo"
      { ftypeName := "ChoiceField", hasChoiceStrings := true, choices := choiceRet }
      "default" "M" false true false envM) rfl rfl rfl rfl rfl (by decide),
   c3_enum_priority_amended.2 "foo" choiceRet false false false⟩

/-- Witness for C4: a digit-leading key at a concrete choice set, and a
concrete clean-key scan. -/
theorem c4_witness :
    getChoicesEscapeSpecChars [(.s "1a", .s "x")] = .ok (true, false) ∧
      (true : Bool) = true ∧
      specCheckChars specChars (([(.s "don't", .s "x")] : List (PyVal × PyVal)).map Prod.fst) = .ok false :=
  ⟨rfl,
   c4_escaping_amended.1 [(.s "1a", .s "x")] "1a" '1' ['a'] true false (by decide)
     (by decide) (by decide) rfl,
   c4_escaping_amended.2.2.1 ([(.s "don't", .s "x")] : List (PyVal × PyVal))
     (by
       intro k hk
       simp at hk
       subst hk
       exact ⟨by decide, by decide⟩)⟩

/-- Witness for C5: deduplication, sortedness, the dedup string shape, and
registry-stable idempotence at concrete inputs. -/
theorem c5_witness :
    (sortedSet ["b", "a", "b"]).count "b" = 1 ∧
      (sortedSet ["b", "a"]).Pairwise (fun a b => strLt a b = true) ∧
      removeDuplicateEnums ["x"] = String.intercalate "\n" (sortedSet ["x"]) ++ "\n\n" ∧
      (getTs "default" false false false false false false
          (⟨envDonce, []⟩ : State)).map (fun r => r.2.2) = .ok dBlock :=
  ⟨c5_dedup_sorted_idempotent_amended.1 ["b", "a", "b"] "b" (by decide),
   c5_dedup_sorted_idempotent_amended.2.1 ["b", "a"],
   c5_dedup_sorted_idempotent_amended.2.2.1 ["x"] (by decide),
   c5_dedup_sorted_idempotent_amended.2.2.2 "default" false false false false false false
     (⟨envDonce, []⟩ : State) (⟨envDonce, []⟩ : State) [] dBlock rfl rfl⟩

/-- Witness for C6: a concrete nullable list field renders with `[]` before
` | null`. -/
theorem c6_witness :
    ∃ nm, (fieldEntry "default" "M7" false false false false false false env7
        ("nf", { ftypeName := "ListField", child := some "IntegerField",
                 allowNull := true })).line =
      "    " ++ nm ++ ": " ++
        ((let r := processFieldElem "nf"
            { ftypeName := "ListField", child := some "IntegerField", allowNull := true }
            "default" "M7" false false false false env7
          if r.many then r.ty ++ "[]" else r.ty) ++ " | null") ++ ";" :=
  (c6_list_marker_null_order "nf"
    { ftypeName := "ListField", child := some "IntegerField", allowNull := true }
    "default" "M7" false false false false false false env7).2 rfl

/-- Witness for C7: the amended fallback applied at a concrete field. -/
theorem c7_witness :
    (processFieldElem "mystery" { ftypeName := "MysteryField" } "default" "M7"
        false false false false env7).ty = "any" ∧
      (processFieldElem "mystery" { ftypeName := "MysteryField" } "default" "M7"
        false false false false env7).warns = [] ∧
      (processFieldElem "mystery" { ftypeName := "MysteryField" } "default" "M7"
        false false false false env7).env = env7 :=
  c7_scalar_fallback_amended "mystery" { ftypeName := "MysteryField" } "default" "M7"
    false false false false env7 rfl rfl rfl rfl (by decide) rfl (by decide) rfl

/-- Witness for C8: a concrete integer-keyed choice set with a non-empty
label produces no "Values" declaration and no error. -/
theorem c8_witness :
    mapChoicesToEnumValues (choiceEnumName "num" ++ "Values") [(.i 1, .s "One")] =
      .ok (none, []) :=
  (c8_values_flavor_amended "num" [(.i 1, .s "One")] ⟨1, by decide⟩
    (by
      intro k hk
      simp at hk)
    (by
      intro v hv
      simp at hv
      subst hv
      decide)).1

/-- Witness for C10: a concrete choice set whose only key is the empty
string makes every flavor raise. -/
theorem c10_witness :
    mapChoicesToEnum "EChoiceEnum" [(.s "", .s "X")] = .error indexErrorMsg ∧
      mapChoicesToEnumValues "EChoiceEnum" [(.s "", .s "X")] = .error indexErrorMsg ∧
      mapChoicesToEnumKeysByValues "EChoiceEnum" [(.s "", .s "X")] = .error indexErrorMsg :=
  c10_empty_string_crash_amended "EChoiceEnum" [(.s "", .s "X")]
    (by
      intro k hk
      simp at hk
      subst hk
      decide)
    (Or.inl (by decide))
